import Mathlib

/-!
Verification of the thunderdomeai/ui control-plane logic: the template
sanitizer (`tenant_stack_template.py`), the configuration resolver/finalizer
and the credential store state machine (`main.py`).

Strings are modelled as `List Char` (`Str`) so that substring ("infix")
reasoning matches Python's `in` / `str.replace` semantics.  JSON-like
configuration trees are modelled by the inductive type `J`.  Python's `None`
is `J.null`; `dict.get` returning `None` both for a missing key and for a
stored `None` is mirrored by `pyGet`, which returns `J.null` in both cases.
-/

namespace ThunderUI

abbrev Str := List Char

/-- JSON-like configuration trees (numbers restricted to the integers that
actually occur in the repository's configuration payloads). -/
inductive J where
  | null : J
  | bool : Bool → J
  | num : Int → J
  | str : Str → J
  | arr : List J → J
  | obj : List (Str × J) → J
deriving Repr

mutual

/-- Structural equality test for trees. -/
def jBeq : J → J → Bool
  | J.null, J.null => true
  | J.bool a, J.bool b => a == b
  | J.num a, J.num b => a == b
  | J.str a, J.str b => a == b
  | J.arr a, J.arr b => jBeqList a b
  | J.obj a, J.obj b => jBeqFields a b
  | _, _ => false

def jBeqList : List J → List J → Bool
  | [], [] => true
  | x :: xs, y :: ys => jBeq x y && jBeqList xs ys
  | _, _ => false

def jBeqFields : List (Str × J) → List (Str × J) → Bool
  | [], [] => true
  | (k, x) :: xs, (l, y) :: ys => k == l && jBeq x y && jBeqFields xs ys
  | _, _ => false

end

mutual

theorem jBeq_correct : ∀ a b : J, jBeq a b = true → a = b
  | J.null, J.null, _ => rfl
  | J.bool _, J.bool _, h => by
    simp only [jBeq, beq_iff_eq] at h; rw [h]
  | J.num _, J.num _, h => by
    simp only [jBeq, beq_iff_eq] at h; rw [h]
  | J.str _, J.str _, h => by
    simp only [jBeq, beq_iff_eq] at h; rw [h]
  | J.arr a, J.arr b, h => by
    simp only [jBeq] at h
    rw [jBeqList_correct a b h]
  | J.obj a, J.obj b, h => by
    simp only [jBeq] at h
    rw [jBeqFields_correct a b h]

theorem jBeqList_correct : ∀ a b : List J, jBeqList a b = true → a = b
  | [], [], _ => rfl
  | x :: xs, y :: ys, h => by
    simp only [jBeqList, Bool.and_eq_true] at h
    rw [jBeq_correct x y h.1, jBeqList_correct xs ys h.2]

theorem jBeqFields_correct :
    ∀ a b : List (Str × J), jBeqFields a b = true → a = b
  | [], [], _ => rfl
  | (k, x) :: xs, (l, y) :: ys, h => by
    simp only [jBeqFields, Bool.and_eq_true, beq_iff_eq] at h
    rw [h.1.1, jBeq_correct x y h.1.2, jBeqFields_correct xs ys h.2]

end

mutual

theorem jBeq_refl : ∀ a : J, jBeq a a = true
  | J.null => rfl
  | J.bool _ => by simp [jBeq]
  | J.num _ => by simp [jBeq]
  | J.str _ => by simp [jBeq]
  | J.arr a => by simp [jBeq, jBeqList_refl a]
  | J.obj a => by simp [jBeq, jBeqFields_refl a]

theorem jBeqList_refl : ∀ a : List J, jBeqList a a = true
  | [] => rfl
  | x :: xs => by simp [jBeqList, jBeq_refl x, jBeqList_refl xs]

theorem jBeqFields_refl : ∀ a : List (Str × J), jBeqFields a a = true
  | [] => rfl
  | (k, x) :: xs => by simp [jBeqFields, jBeq_refl x, jBeqFields_refl xs]

end

instance : DecidableEq J := fun a b =>
  if h : jBeq a b = true then
    isTrue (jBeq_correct a b h)
  else
    isFalse (fun hab => h (hab ▸ jBeq_refl a))

/-- Python truthiness of a JSON value: `None`, `False`, `0`, `""`, `[]` and
`{}` are falsy, everything else truthy. -/
def jTruthy : J → Bool
  | J.null => false
  | J.bool b => b
  | J.num n => n != 0
  | J.str s => s != []
  | J.arr l => l != []
  | J.obj l => l != []

/-- Python's `a or b` on JSON values: `a` if truthy, else `b`. -/
def pyOr (a b : J) : J := if jTruthy a then a else b

/-- `dict.get(key)`: the first value stored under `key`, or `None`.
Missing keys and stored `None` values are both reported as `J.null`,
exactly as in Python. -/
def pyGet (fields : List (Str × J)) (key : Str) : J :=
  match fields with
  | [] => J.null
  | (k, v) :: rest => if k = key then v else pyGet rest key

/-- `key in dict` for a JSON value used as the key probe: only a string equal
to one of the (string) keys is a member. -/
def pyKeyMem (x : J) (fields : List (Str × J)) : Bool :=
  match x with
  | J.str s => fields.any (fun kv => kv.1 == s)
  | _ => false

/-- Whether `key` is present in the mapping (regardless of stored value). -/
def hasKey (fields : List (Str × J)) (key : Str) : Bool :=
  fields.any (fun kv => kv.1 == key)

/-- `dict[key] = value`: replace the value of the first matching key in
place, otherwise append the pair (Python dicts keep insertion order). -/
def pySet (fields : List (Str × J)) (key : Str) (value : J) : List (Str × J) :=
  match fields with
  | [] => [(key, value)]
  | (k, v) :: rest =>
    if k = key then (k, value) :: rest else (k, v) :: pySet rest key value

/-! ### Template sanitizer (`tenant_stack_template.py`) -/

def toLowerStr (s : Str) : Str := s.map Char.toLower

def toUpperStr (s : Str) : Str := s.map Char.toUpper

def isAsciiAlnum (c : Char) : Bool := c.isAlpha || c.isDigit

/-- `pat in s` (Python substring test). -/
def containsStr (pat s : Str) : Bool := s.tails.any (fun t => pat.isPrefixOf t)

theorem containsStr_iff {pat s : Str} : containsStr pat s = true ↔ pat <:+: s := by
  simp only [containsStr, List.any_eq_true, List.mem_tails,
    List.isPrefixOf_iff_prefix]
  rw [List.infix_iff_prefix_suffix]
  exact ⟨fun ⟨t, h1, h2⟩ => ⟨t, h2, h1⟩, fun ⟨t, h1, h2⟩ => ⟨t, h2, h1⟩⟩

/-- Helper for `re.sub(r"[^A-Za-z0-9]+", "_", key)`: `inRun` records whether
the previous character belonged to a non-alphanumeric run that has already
emitted its single underscore. -/
def collapseNonAlnumAux (inRun : Bool) : Str → Str
  | [] => []
  | c :: rest =>
    if isAsciiAlnum c then c :: collapseNonAlnumAux false rest
    else if inRun then collapseNonAlnumAux true rest
    else '_' :: collapseNonAlnumAux true rest

/-- `re.sub(r"[^A-Za-z0-9]+", "_", key)`: collapse every run of
non-alphanumeric characters into a single underscore. -/
def collapseNonAlnum (s : Str) : Str := collapseNonAlnumAux false s

/-- Python `str.strip("_")`. -/
def stripUnderscores (s : Str) : Str :=
  ((s.dropWhile (· = '_')).reverse.dropWhile (· = '_')).reverse

/-- `_normalize_key`. -/
def normalizeKey : Option Str → Str
  | none => "VALUE".data
  | some key =>
    if key = [] then "VALUE".data
    else
      let cleaned := toUpperStr (stripUnderscores (collapseNonAlnum key))
      if cleaned = [] then "VALUE".data else cleaned

/-- `STRICT_PLACEHOLDERS`. -/
def strictPlaceholders : List (Str × Str) :=
  [ ("project_id".data, "\x7b\x7bPROJECT_ID\x7d\x7d".data),
    ("tenant_id".data, "\x7b\x7bTENANT_ID\x7d\x7d".data),
    ("google_cloud_project".data, "\x7b\x7bPROJECT_ID\x7d\x7d".data),
    ("region".data, "\x7b\x7bREGION\x7d\x7d".data),
    ("database_instance".data, "\x7b\x7bDB_INSTANCE\x7d\x7d".data),
    ("database_name".data, "\x7b\x7bDB_NAME\x7d\x7d".data),
    ("db_username".data, "\x7b\x7bDB_USERNAME\x7d\x7d".data),
    ("db_password".data, "REPLACE_ME_DB_PASSWORD".data),
    ("github_token".data, "REPLACE_ME_GITHUB_TOKEN".data) ]

/-- `SENSITIVE_KEYWORDS`. -/
def sensitiveKeywords : List Str :=
  [ "token".data, "secret".data, "password".data, "api_key".data,
    "apikey".data, "auth".data, "credential".data, "sa".data, "sid".data,
    "key".data ]

/-- `URL_KEYWORDS`. -/
def urlKeywords : List Str := ["url".data, "endpoint".data, "base_url".data]

def assocLookup (m : List (Str × Str)) (k : Str) : Option Str :=
  match m with
  | [] => none
  | (k', v) :: rest => if k' = k then some v else assocLookup rest k

/-- `_placeholder_for_key`. -/
def placeholderForKey : Option Str → Option Str
  | none => none
  | some key =>
    if key = [] then none
    else
      match assocLookup strictPlaceholders (toLowerStr key) with
      | some p => some p
      | none =>
        if urlKeywords.any (fun kw => containsStr kw (toLowerStr key)) then
          some ("https://REPLACE_ME_".data ++ normalizeKey (some key))
        else if sensitiveKeywords.any (fun kw => containsStr kw (toLowerStr key))
            || "db".data.isPrefixOf (toLowerStr key) then
          some ("REPLACE_ME_".data ++ normalizeKey (some key))
        else none

/-- `_looks_like_secret_value`. -/
def looksLikeSecretValue (v : Str) : Bool :=
  if "-----BEGIN".data.isPrefixOf v || "ssh-".data.isPrefixOf v then true
  else if 32 < v.length && v.any Char.isDigit && v.any Char.isAlpha then
    !("http".data.isPrefixOf (toLowerStr v))
  else false

/-- Python's `value.replace(token, placeholder)`: greedy left-to-right
non-overlapping replacement.  The `t ≠ []` guard never fires under
`replaceKnownTokens`, which (like the source) skips empty tokens. -/
def replaceList (t pl : Str) : Str → Str
  | [] => []
  | c :: rest =>
    if t ≠ [] ∧ t.isPrefixOf (c :: rest) = true then
      pl ++ replaceList t pl ((c :: rest).drop t.length)
    else
      c :: replaceList t pl rest
termination_by s => s.length
decreasing_by
  · rename_i ht
    simp only [List.length_drop, List.length_cons]
    have : t.length ≠ 0 := fun h => ht.1 (List.eq_nil_of_length_eq_zero h)
    omega
  · simp

/-- `_replace_known_tokens`. -/
def replaceKnownTokens (value : Str) (tokens : List Str) (placeholder : Str) :
    Str :=
  tokens.foldl
    (fun v t => if t = [] then v else replaceList t placeholder v) value

/-- Length of the match, if any, of the (buggy) pattern
`re.compile(r"\\b\\d{11,}\\b")` at the head of `s`.  Because the source
doubles the backslashes inside a raw string, the regex matches a literal
backslash-`b`, then eleven or more letter-`d` characters, then another
literal backslash-`b` — not digit runs. -/
def digitRunMatchLen (s : Str) : Option Nat :=
  match s with
  | c1 :: c2 :: rest =>
    if c1 = '\\' ∧ c2 = 'b' then
      if 11 ≤ (rest.takeWhile (fun c => c = 'd')).length ∧
          ['\\', 'b'].isPrefixOf
            (rest.drop (rest.takeWhile (fun c => c = 'd')).length) = true
      then some (2 + (rest.takeWhile (fun c => c = 'd')).length + 2)
      else none
    else none
  | _ => none

theorem digitRunMatchLen_pos {s : Str} {n : Nat} :
    digitRunMatchLen s = some n → 1 ≤ n := by
  intro h
  match s with
  | [] => simp [digitRunMatchLen] at h
  | [c] => simp [digitRunMatchLen] at h
  | c1 :: c2 :: rest =>
    simp only [digitRunMatchLen] at h
    split at h
    · split at h
      · simp only [Option.some.injEq] at h
        omega
      · exact absurd h (by simp)
    · exact absurd h (by simp)

/-- `re.sub(r"\\b\\d{11,}\\b", "{{PROJECT_NUMBER}}", s)` with the pattern
exactly as written in the source (doubled backslashes in a raw string). -/
def digitRunSub : Str → Str
  | [] => []
  | c :: rest =>
    match h : digitRunMatchLen (c :: rest) with
    | some n => "\x7b\x7bPROJECT_NUMBER\x7d\x7d".data ++
        digitRunSub ((c :: rest).drop n)
    | none => c :: digitRunSub rest
termination_by s => s.length
decreasing_by
  · have := digitRunMatchLen_pos h
    simp only [List.length_drop, List.length_cons]
    omega
  · simp

/-- The three coordinate sets collected by `_collect_known_coordinates`
(Python `set`s, modelled as duplicate-free lists in first-insertion order). -/
structure Coords where
  projectIds : List Str
  regions : List Str
  dbInstances : List Str
deriving Repr, DecidableEq

def insertUnique (s : List Str) (x : Str) : List Str :=
  if x ∈ s then s else s ++ [x]

/-- The per-child set updates inside `_collect_known_coordinates.walk`. -/
def coordUpdate (acc : Coords) (childKey : Str) (childVal : J) : Coords :=
  match childVal with
  | J.str s =>
    let lower := toLowerStr childKey
    let acc :=
      if lower = "project_id".data ∨ lower = "tenant_id".data ∨
          lower = "google_cloud_project".data then
        { acc with projectIds := insertUnique acc.projectIds s }
      else acc
    let acc :=
      if lower = "region".data then
        { acc with regions := insertUnique acc.regions s }
      else acc
    if lower = "database_instance".data then
      { acc with dbInstances := insertUnique acc.dbInstances s }
    else acc
  | _ => acc

mutual

/-- `_collect_known_coordinates.walk` (its `key` parameter is never read, so
it is omitted). -/
def collectWalk : J → Coords → Coords
  | J.obj fields, acc => collectFields fields acc
  | J.arr items, acc => collectItems items acc
  | _, acc => acc

def collectFields : List (Str × J) → Coords → Coords
  | [], acc => acc
  | (k, v) :: rest, acc =>
    collectFields rest (collectWalk v (coordUpdate acc k v))

def collectItems : List J → Coords → Coords
  | [], acc => acc
  | x :: rest, acc => collectItems rest (collectWalk x acc)

end

/-- `_collect_known_coordinates`. -/
def collectKnownCoordinates (payload : J) : Coords :=
  collectWalk payload ⟨[], [], []⟩

/-- The string-leaf branch of `_sanitize_value`. -/
def sanitizeString (co : Coords) (key : Option Str) (s : Str) : Str :=
  match placeholderForKey key with
  | some p => p
  | none =>
    let sanitized := replaceKnownTokens s co.projectIds
      "\x7b\x7bPROJECT_ID\x7d\x7d".data
    let sanitized := replaceKnownTokens sanitized co.regions
      "\x7b\x7bREGION\x7d\x7d".data
    let sanitized := replaceKnownTokens sanitized co.dbInstances
      "\x7b\x7bDB_INSTANCE\x7d\x7d".data
    let sanitized := digitRunSub sanitized
    if sanitized ≠ s then sanitized
    else if looksLikeSecretValue s then
      "REPLACE_ME_".data ++ normalizeKey key
    else s

mutual

/-- `_sanitize_value`. -/
def sanitizeValue (co : Coords) : J → Option Str → J
  | J.obj fields, _ => J.obj (sanitizeFields co fields)
  | J.arr items, _ => J.arr (sanitizeItems co items)
  | J.str s, key => J.str (sanitizeString co key s)
  | v, _ => v

def sanitizeFields (co : Coords) : List (Str × J) → List (Str × J)
  | [] => []
  | (k, v) :: rest => (k, sanitizeValue co v (some k)) :: sanitizeFields co rest

def sanitizeItems (co : Coords) : List J → List J
  | [] => []
  | x :: rest => sanitizeValue co x none :: sanitizeItems co rest

end

/-- `sanitize_tenant_stack_template`. -/
def sanitizeTenantStackTemplate (payload : J) : J :=
  sanitizeValue (collectKnownCoordinates payload) payload none

/-! ### Non-leakage machinery: how `str.replace`-style scans act on
substring occurrences. -/

/-- A string with no brace characters (the replacement placeholders are
brace-delimited, so such strings cannot straddle a placeholder boundary). -/
def BraceFree (c : Str) : Prop := '{' ∉ c ∧ '}' ∉ c

instance (c : Str) : Decidable (BraceFree c) := by
  unfold BraceFree; infer_instance

/-- Abstract left-to-right scanner: at every nonempty input it either emits
the placeholder `pl` and consumes at least one character, or copies the head
character.  Both `replaceList t pl` (for `t ≠ []`) and `digitRunSub`
(with `pl` the project-number placeholder) satisfy this. -/
def ScannerStep (pl : Str) (f : Str → Str) : Prop :=
  f [] = [] ∧
    ∀ c rest, (∃ n, 1 ≤ n ∧ f (c :: rest) = pl ++ f ((c :: rest).drop n)) ∨
      f (c :: rest) = c :: f rest

theorem prefixAppendCases {α : Type} {c a b : List α} (h : c <+: a ++ b) :
    c <+: a ∨ ∃ d, c = a ++ d ∧ d <+: b := by
  induction a generalizing c with
  | nil => exact Or.inr ⟨c, rfl, h⟩
  | cons x a' ih =>
    match c with
    | [] => exact Or.inl List.nil_prefix
    | y :: c' =>
      rw [List.cons_append, List.cons_prefix_cons] at h
      obtain ⟨rfl, h'⟩ := h
      rcases ih h' with h2 | ⟨d, rfl, hd⟩
      · exact Or.inl (List.cons_prefix_cons.mpr ⟨rfl, h2⟩)
      · exact Or.inr ⟨d, rfl, hd⟩

theorem infixAppendCases {α : Type} {c a b : List α} (h : c <:+: a ++ b) :
    c <:+: a ∨ c <:+: b ∨
      ∃ c1 c2, c = c1 ++ c2 ∧ c1 ≠ [] ∧ c2 ≠ [] ∧ c1 <:+ a ∧ c2 <+: b := by
  induction a generalizing c with
  | nil => exact Or.inr (Or.inl (by simpa using h))
  | cons x a' ih =>
    rw [List.cons_append, List.infix_cons_iff] at h
    rcases h with h | h
    · match c with
      | [] => exact Or.inl List.nil_infix
      | y :: c' =>
        rw [List.cons_prefix_cons] at h
        obtain ⟨rfl, h'⟩ := h
        rcases prefixAppendCases h' with h2 | ⟨d, rfl, hd⟩
        · exact Or.inl ((List.cons_prefix_cons.mpr ⟨rfl, h2⟩).isInfix)
        · match d with
          | [] => exact Or.inl (by simpa using List.infix_refl (y :: a'))
          | z :: d' =>
            refine Or.inr (Or.inr ⟨y :: a', z :: d', rfl, by simp, by simp,
              List.suffix_refl _, hd⟩)
    · rcases ih h with h2 | h2 | ⟨c1, c2, rfl, hc1, hc2, hs, hp⟩
      · exact Or.inl (List.infix_cons h2)
      · exact Or.inr (Or.inl h2)
      · exact Or.inr (Or.inr ⟨c1, c2, rfl, hc1, hc2, hs.trans (List.suffix_cons x a'), hp⟩)

theorem mem_of_suffix_getLast {c1 pl : Str} {x : Char}
    (hsuf : c1 <:+ pl) (hne : c1 ≠ []) (hlast : pl.getLast? = some x) :
    x ∈ c1 := by
  obtain ⟨u, rfl⟩ := hsuf
  rw [List.getLast?_append] at hlast
  match h : c1.getLast? with
  | none => exact absurd (List.getLast?_eq_none_iff.mp h) hne
  | some y =>
    rw [h] at hlast
    simp only [Option.or_some, Option.some.injEq] at hlast
    subst hlast
    exact List.mem_of_mem_getLast? h

theorem braceFree_of_cons {y : Char} {c : Str} (h : BraceFree (y :: c)) :
    BraceFree c :=
  ⟨fun hm => h.1 (List.mem_cons_of_mem _ hm),
   fun hm => h.2 (List.mem_cons_of_mem _ hm)⟩

/-- Any brace-free prefix of a scanner's output is a prefix of its input. -/
theorem scanner_prefix_pres {pl : Str} {f : Str → Str}
    (hf : ScannerStep pl f) (hhead : ∃ p', pl = '{' :: p') :
    ∀ s c', BraceFree c' → c' <+: f s → c' <+: s := by
  have H : ∀ n (s : Str), s.length ≤ n →
      ∀ c', BraceFree c' → c' <+: f s → c' <+: s := by
    intro n
    induction n with
    | zero =>
      intro s hs c' hbf hpre
      have : s = [] := List.eq_nil_of_length_eq_zero (Nat.le_zero.mp hs)
      subst this
      rw [hf.1] at hpre
      exact hpre
    | succ n ih =>
      intro s hs c' hbf hpre
      match s with
      | [] =>
        rw [hf.1] at hpre
        exact hpre
      | ch :: rest =>
        rcases hf.2 ch rest with ⟨m, _, heq⟩ | heq
        · rw [heq] at hpre
          match c' with
          | [] => exact List.nil_prefix
          | y :: c'' =>
            obtain ⟨p', rfl⟩ := hhead
            rw [List.cons_append, List.cons_prefix_cons] at hpre
            exact absurd (hpre.1 ▸ List.mem_cons_self y c'') hbf.1
        · rw [heq] at hpre
          match c' with
          | [] => exact List.nil_prefix
          | y :: c'' =>
            rw [List.cons_prefix_cons] at hpre
            obtain ⟨rfl, h''⟩ := hpre
            have hrec := ih rest (by simp only [List.length_cons] at hs; omega)
              c'' (braceFree_of_cons hbf) h''
            exact List.cons_prefix_cons.mpr ⟨rfl, hrec⟩
  exact fun s => H s.length s le_rfl

/-- A nonempty brace-free string that is not a substring of the placeholder
occurs in a scanner's output only where it already occurred in the input. -/
theorem scanner_infix_pres {pl : Str} {f : Str → Str}
    (hf : ScannerStep pl f) (hhead : ∃ p', pl = '{' :: p')
    (hlast : pl.getLast? = some '}') :
    ∀ s c, BraceFree c → c ≠ [] → ¬ c <:+: pl →
      c <:+: f s → c <:+: s := by
  have H : ∀ n (s : Str), s.length ≤ n →
      ∀ c, BraceFree c → c ≠ [] → ¬ c <:+: pl → c <:+: f s → c <:+: s := by
    intro n
    induction n with
    | zero =>
      intro s hs c _ hne _ hocc
      have : s = [] := List.eq_nil_of_length_eq_zero (Nat.le_zero.mp hs)
      subst this
      rw [hf.1] at hocc
      exact absurd (List.infix_nil.mp hocc) hne
    | succ n ih =>
      intro s hs c hbf hne hnpl hocc
      match s with
      | [] =>
        rw [hf.1] at hocc
        exact absurd (List.infix_nil.mp hocc) hne
      | ch :: rest =>
        rcases hf.2 ch rest with ⟨m, hm, heq⟩ | heq
        · rw [heq] at hocc
          rcases infixAppendCases hocc with h | h | ⟨c1, c2, rfl, hc1, _, hsuf, _⟩
          · exact absurd h hnpl
          · have hlen : ((ch :: rest).drop m).length ≤ n := by
              simp only [List.length_drop, List.length_cons]
              simp only [List.length_cons] at hs
              omega
            have hrec := ih _ hlen c hbf hne hnpl h
            exact hrec.trans (List.drop_suffix m (ch :: rest)).isInfix
          · exact absurd (List.mem_append_left c2
              (mem_of_suffix_getLast hsuf hc1 hlast)) hbf.2
        · rw [heq] at hocc
          rcases List.infix_cons_iff.mp hocc with h | h
          · match c, hne with
            | y :: c'', _ =>
              rw [List.cons_prefix_cons] at h
              obtain ⟨rfl, h''⟩ := h
              have hpre := scanner_prefix_pres hf hhead rest c''
                (braceFree_of_cons hbf) h''
              exact (List.cons_prefix_cons.mpr ⟨rfl, hpre⟩).isInfix
          · have hrec := ih rest (by simp only [List.length_cons] at hs; omega)
              c hbf hne hnpl h
            exact List.infix_cons hrec
  exact fun s => H s.length s le_rfl

theorem replaceList_scannerStep {t pl : Str} (ht : t ≠ []) :
    ScannerStep pl (replaceList t pl) := by
  constructor
  · rw [replaceList]
  · intro c rest
    by_cases hp : t.isPrefixOf (c :: rest) = true
    · refine Or.inl ⟨t.length, ?_, ?_⟩
      · have : t.length ≠ 0 := fun h => ht (List.eq_nil_of_length_eq_zero h)
        omega
      · rw [replaceList]
        rw [if_pos ⟨ht, hp⟩]
    · refine Or.inr ?_
      rw [replaceList]
      rw [if_neg (fun hc => hp hc.2)]

theorem digitRunSub_scannerStep :
    ScannerStep "\x7b\x7bPROJECT_NUMBER\x7d\x7d".data digitRunSub := by
  constructor
  · rw [digitRunSub]
  · intro c rest
    match hm : digitRunMatchLen (c :: rest) with
    | some n =>
      refine Or.inl ⟨n, digitRunMatchLen_pos hm, ?_⟩
      rw [digitRunSub]
      split
      · rename_i n' hn'
        rw [hm] at hn'
        cases Option.some_injective _ hn'
        rfl
      · rename_i hn'
        rw [hm] at hn'
        cases hn'
    | none =>
      refine Or.inr ?_
      rw [digitRunSub]
      split
      · rename_i n' hn'
        rw [hm] at hn'
        cases hn'
      · rfl

/-- After `value.replace(t, pl)` there is no occurrence of `t` left, provided
`t` is brace-free and not a substring of the brace-delimited `pl`. -/
theorem replaceList_removes {t pl : Str} (ht : t ≠ []) (hbf : BraceFree t)
    (hnpl : ¬ t <:+: pl) (hhead : ∃ p', pl = '{' :: p')
    (hlast : pl.getLast? = some '}') :
    ∀ s, ¬ t <:+: replaceList t pl s := by
  have hf : ScannerStep pl (replaceList t pl) := replaceList_scannerStep ht
  have H : ∀ n (s : Str), s.length ≤ n → ¬ t <:+: replaceList t pl s := by
    intro n
    induction n with
    | zero =>
      intro s hs hocc
      have : s = [] := List.eq_nil_of_length_eq_zero (Nat.le_zero.mp hs)
      subst this
      rw [replaceList] at hocc
      exact ht (List.infix_nil.mp hocc)
    | succ n ih =>
      intro s hs hocc
      match s with
      | [] =>
        rw [replaceList] at hocc
        exact ht (List.infix_nil.mp hocc)
      | ch :: rest =>
        by_cases hp : t.isPrefixOf (ch :: rest) = true
        · rw [replaceList, if_pos ⟨ht, hp⟩] at hocc
          rcases infixAppendCases hocc with h | h | ⟨c1, c2, hsplit, hc1, _, hsuf, _⟩
          · exact hnpl h
          · have hlen : ((ch :: rest).drop t.length).length ≤ n := by
              have : t.length ≠ 0 := fun hh => ht (List.eq_nil_of_length_eq_zero hh)
              simp only [List.length_drop, List.length_cons]
              simp only [List.length_cons] at hs
              omega
            exact ih _ hlen h
          · exact hbf.2 (hsplit ▸ List.mem_append_left c2
              (mem_of_suffix_getLast hsuf hc1 hlast))
        · rw [replaceList, if_neg (fun hc => hp hc.2)] at hocc
          rcases List.infix_cons_iff.mp hocc with h | h
          · match t, ht with
            | y :: t'', _ =>
              rw [List.cons_prefix_cons] at h
              obtain ⟨rfl, h''⟩ := h
              have hpre := scanner_prefix_pres hf hhead rest t''
                (braceFree_of_cons hbf) h''
              exact hp (List.isPrefixOf_iff_prefix.mpr
                (List.cons_prefix_cons.mpr ⟨rfl, hpre⟩))
          · exact ih rest (by simp only [List.length_cons] at hs; omega) h
  exact fun s => H s.length s le_rfl

/-- `_replace_known_tokens` neither introduces new occurrences of a
brace-free string `c` that is not a substring of the placeholder...  -/
theorem replaceKnownTokens_infix_pres {pl : Str} {c : Str}
    (hbf : BraceFree c) (hne : c ≠ []) (hnpl : ¬ c <:+: pl)
    (hhead : ∃ p', pl = '{' :: p') (hlast : pl.getLast? = some '}') :
    ∀ tokens v, c <:+: replaceKnownTokens v tokens pl → c <:+: v := by
  intro tokens
  induction tokens with
  | nil => intro v h; exact h
  | cons t ts ih =>
    intro v h
    rw [replaceKnownTokens, List.foldl_cons] at h
    by_cases hte : t = []
    · rw [if_pos hte] at h
      exact ih v h
    · rw [if_neg hte] at h
      have := ih (replaceList t pl v) h
      exact scanner_infix_pres (replaceList_scannerStep hte) hhead hlast v c
        hbf hne hnpl this

/-- After `_replace_known_tokens`, no token of the replaced set occurs in the
result (under the brace-freeness side conditions). -/
theorem replaceKnownTokens_removes {pl : Str} {t : Str}
    (hbf : BraceFree t) (hne : t ≠ []) (hnpl : ¬ t <:+: pl)
    (hhead : ∃ p', pl = '{' :: p') (hlast : pl.getLast? = some '}') :
    ∀ tokens v, t ∈ tokens → ¬ t <:+: replaceKnownTokens v tokens pl := by
  intro tokens
  induction tokens with
  | nil => intro v h; cases h
  | cons t2 ts ih =>
    intro v hmem hocc
    rw [replaceKnownTokens, List.foldl_cons] at hocc
    rcases List.mem_cons.mp hmem with rfl | hmem2
    · rw [if_neg hne] at hocc
      by_cases hts : t ∈ ts
      · exact ih _ hts hocc
      · have := replaceKnownTokens_infix_pres hbf hne hnpl hhead hlast ts _ hocc
        exact replaceList_removes hne hbf hnpl hhead hlast v this
    · by_cases ht2 : t2 = []
      · rw [if_pos ht2] at hocc
        exact ih _ hmem2 hocc
      · rw [if_neg ht2] at hocc
        exact ih _ hmem2 hocc

/-! ### Non-leakage statement ingredients -/

/-- The placeholder/replacement string literals of the sanitizer that do not
depend on a key. -/
def fixedLits : List Str :=
  strictPlaceholders.map Prod.snd ++
    [ "\x7b\x7bPROJECT_ID\x7d\x7d".data, "\x7b\x7bREGION\x7d\x7d".data,
      "\x7b\x7bDB_INSTANCE\x7d\x7d".data,
      "\x7b\x7bPROJECT_NUMBER\x7d\x7d".data ]

/-- The key-derived replacement literals the sanitizer can emit for a value
owned by `key`. -/
def keyLits (key : Option Str) : List Str :=
  [ "https://REPLACE_ME_".data ++ normalizeKey key,
    "REPLACE_ME_".data ++ normalizeKey key ]

/-- All coordinate values discovered from the input. -/
def allCoords (payload : J) : List Str :=
  let co := collectKnownCoordinates payload
  co.projectIds ++ co.regions ++ co.dbInstances

mutual

/-- Every object key occurring anywhere in a tree. -/
def keysIn : J → List Str
  | J.obj fields => keysInFields fields
  | J.arr items => keysInItems items
  | _ => []

def keysInFields : List (Str × J) → List Str
  | [] => []
  | (k, v) :: rest => k :: (keysIn v ++ keysInFields rest)

def keysInItems : List J → List Str
  | [] => []
  | x :: rest => keysIn x ++ keysInItems rest

end

mutual

/-- Every string occurring anywhere in a tree: string leaves and object
keys. -/
def strsIn : J → List Str
  | J.obj fields => strsInFields fields
  | J.arr items => strsInItems items
  | J.str s => [s]
  | _ => []

def strsInFields : List (Str × J) → List Str
  | [] => []
  | (k, v) :: rest => k :: (strsIn v ++ strsInFields rest)

def strsInItems : List J → List Str
  | [] => []
  | x :: rest => strsIn x ++ strsInItems rest

end

theorem assocLookup_mem {m : List (Str × Str)} {k v : Str}
    (h : assocLookup m k = some v) : v ∈ m.map Prod.snd := by
  induction m with
  | nil => cases h
  | cons p rest ih =>
    rw [assocLookup] at h
    split at h
    · cases Option.some_injective _ h
      exact List.mem_cons_self _ _
    · exact List.mem_cons_of_mem _ (ih h)

/-- Whatever `_placeholder_for_key` returns is a fixed literal or a
key-derived literal. -/
theorem placeholderForKey_mem {key : Option Str} {p : Str}
    (h : placeholderForKey key = some p) :
    p ∈ fixedLits ∨ p ∈ keyLits key := by
  match key with
  | none => cases h
  | some k =>
    rw [placeholderForKey] at h
    split at h
    · cases h
    · rename_i hk
      split at h
      · rename_i p0 hlook
        cases Option.some_injective _ h
        exact Or.inl (List.mem_append_left _ (assocLookup_mem hlook))
      · split at h
        · cases Option.some_injective _ h
          exact Or.inr (List.mem_cons_self _ _)
        · split at h
          · cases Option.some_injective _ h
            exact Or.inr (List.mem_cons_of_mem _ (List.mem_cons_self _ _))
          · cases h

theorem plHead_PROJECT_ID :
    ∃ p', "\x7b\x7bPROJECT_ID\x7d\x7d".data = '{' :: p' :=
  ⟨"\x7bPROJECT_ID\x7d\x7d".data, by decide⟩

theorem plHead_REGION :
    ∃ p', "\x7b\x7bREGION\x7d\x7d".data = '{' :: p' :=
  ⟨"\x7bREGION\x7d\x7d".data, by decide⟩

theorem plHead_DB_INSTANCE :
    ∃ p', "\x7b\x7bDB_INSTANCE\x7d\x7d".data = '{' :: p' :=
  ⟨"\x7bDB_INSTANCE\x7d\x7d".data, by decide⟩

theorem plHead_PROJECT_NUMBER :
    ∃ p', "\x7b\x7bPROJECT_NUMBER\x7d\x7d".data = '{' :: p' :=
  ⟨"\x7bPROJECT_NUMBER\x7d\x7d".data, by decide⟩

/-- Core string-level non-leakage: for a discovered coordinate `c` subject to
the side conditions, the sanitized form of any string value contains no
occurrence of `c`. -/
theorem sanitizeString_no_coord (co : Coords) (key : Option Str) (s : Str)
    (c : Str)
    (hmem : c ∈ co.projectIds ∨ c ∈ co.regions ∨ c ∈ co.dbInstances)
    (hne : c ≠ []) (hbf : BraceFree c)
    (hfix : ∀ lit ∈ fixedLits, ¬ c <:+: lit)
    (hkey : ∀ lit ∈ keyLits key, ¬ c <:+: lit) :
    ¬ c <:+: sanitizeString co key s := by
  have hnplP : ¬ c <:+: "\x7b\x7bPROJECT_ID\x7d\x7d".data :=
    hfix _ (by rw [fixedLits]; exact List.mem_append_right _ (by simp))
  have hnplR : ¬ c <:+: "\x7b\x7bREGION\x7d\x7d".data :=
    hfix _ (by rw [fixedLits]; exact List.mem_append_right _ (by simp))
  have hnplD : ¬ c <:+: "\x7b\x7bDB_INSTANCE\x7d\x7d".data :=
    hfix _ (by rw [fixedLits]; exact List.mem_append_right _ (by simp))
  have hnplN : ¬ c <:+: "\x7b\x7bPROJECT_NUMBER\x7d\x7d".data :=
    hfix _ (by rw [fixedLits]; exact List.mem_append_right _ (by simp))
  have hlastP : ("\x7b\x7bPROJECT_ID\x7d\x7d".data).getLast? = some '}' := by
    decide
  have hlastR : ("\x7b\x7bREGION\x7d\x7d".data).getLast? = some '}' := by
    decide
  have hlastD : ("\x7b\x7bDB_INSTANCE\x7d\x7d".data).getLast? = some '}' := by
    decide
  have hlastN : ("\x7b\x7bPROJECT_NUMBER\x7d\x7d".data).getLast? = some '}' := by
    decide
  rw [sanitizeString]
  match hpk : placeholderForKey key with
  | some p =>
    intro hocc
    rcases placeholderForKey_mem hpk with hp | hp
    · exact hfix p hp hocc
    · exact hkey p hp hocc
  | none =>
    simp only
    have hs4 : ¬ c <:+: digitRunSub
        (replaceKnownTokens
          (replaceKnownTokens
            (replaceKnownTokens s co.projectIds
              "\x7b\x7bPROJECT_ID\x7d\x7d".data)
            co.regions "\x7b\x7bREGION\x7d\x7d".data)
          co.dbInstances "\x7b\x7bDB_INSTANCE\x7d\x7d".data) := by
      intro hocc
      have h3 := scanner_infix_pres digitRunSub_scannerStep
        plHead_PROJECT_NUMBER hlastN _ c hbf hne hnplN hocc
      rcases hmem with hm | hm | hm
      · have h2 := replaceKnownTokens_infix_pres hbf hne hnplD
          plHead_DB_INSTANCE hlastD _ _ h3
        have h1 := replaceKnownTokens_infix_pres hbf hne hnplR
          plHead_REGION hlastR _ _ h2
        exact replaceKnownTokens_removes hbf hne hnplP plHead_PROJECT_ID
          hlastP _ s hm h1
      · have h2 := replaceKnownTokens_infix_pres hbf hne hnplD
          plHead_DB_INSTANCE hlastD _ _ h3
        exact replaceKnownTokens_removes hbf hne hnplR plHead_REGION
          hlastR _ _ hm h2
      · exact replaceKnownTokens_removes hbf hne hnplD plHead_DB_INSTANCE
          hlastD _ _ hm h3
    split
    · exact hs4
    · rename_i hchanged
      split
      · exact hkey _ (List.mem_cons_of_mem _ (List.mem_cons_self _ _))
      · rw [not_not] at hchanged
        rw [hchanged] at hs4
        exact hs4

mutual

/-- Tree-level non-leakage, value case. -/
theorem sanitizeValue_no_coord (co : Coords) (c : Str)
    (hmem : c ∈ co.projectIds ∨ c ∈ co.regions ∨ c ∈ co.dbInstances)
    (hne : c ≠ []) (hbf : BraceFree c)
    (hfix : ∀ lit ∈ fixedLits, ¬ c <:+: lit)
    (hnone : ∀ lit ∈ keyLits none, ¬ c <:+: lit) :
    ∀ (v : J) (key : Option Str),
      (∀ k ∈ keysIn v, ¬ c <:+: k) →
      (∀ k ∈ keysIn v, ∀ lit ∈ keyLits (some k), ¬ c <:+: lit) →
      (∀ lit ∈ keyLits key, ¬ c <:+: lit) →
      ∀ s ∈ strsIn (sanitizeValue co v key), ¬ c <:+: s
  | J.null, _, _, _, _ => by simp [sanitizeValue, strsIn]
  | J.bool _, _, _, _, _ => by simp [sanitizeValue, strsIn]
  | J.num _, _, _, _, _ => by simp [sanitizeValue, strsIn]
  | J.str s0, key, _, _, hkey => by
    simp only [sanitizeValue, strsIn, List.mem_singleton]
    intro s hs
    subst hs
    exact sanitizeString_no_coord co key s0 c hmem hne hbf hfix hkey
  | J.obj fields, _, hk, hkl, _ => by
    simp only [sanitizeValue, strsIn]
    exact sanitizeFields_no_coord co c hmem hne hbf hfix hnone fields
      (by simpa [keysIn] using hk) (by simpa [keysIn] using hkl)
  | J.arr items, _, hk, hkl, _ => by
    simp only [sanitizeValue, strsIn]
    exact sanitizeItems_no_coord co c hmem hne hbf hfix hnone items
      (by simpa [keysIn] using hk) (by simpa [keysIn] using hkl)

/-- Tree-level non-leakage, object-fields case. -/
theorem sanitizeFields_no_coord (co : Coords) (c : Str)
    (hmem : c ∈ co.projectIds ∨ c ∈ co.regions ∨ c ∈ co.dbInstances)
    (hne : c ≠ []) (hbf : BraceFree c)
    (hfix : ∀ lit ∈ fixedLits, ¬ c <:+: lit)
    (hnone : ∀ lit ∈ keyLits none, ¬ c <:+: lit) :
    ∀ (fields : List (Str × J)),
      (∀ k ∈ keysInFields fields, ¬ c <:+: k) →
      (∀ k ∈ keysInFields fields, ∀ lit ∈ keyLits (some k), ¬ c <:+: lit) →
      ∀ s ∈ strsInFields (sanitizeFields co fields), ¬ c <:+: s
  | [], _, _ => by simp [sanitizeFields, strsInFields]
  | (k, v) :: rest, hk, hkl => by
    simp only [sanitizeFields, strsInFields, List.mem_cons, List.mem_append]
    intro s hs
    rcases hs with rfl | hs | hs
    · exact hk s (by simp [keysInFields])
    · exact sanitizeValue_no_coord co c hmem hne hbf hfix hnone v (some k)
        (fun k2 hk2 => hk k2 (by simp [keysInFields, hk2]))
        (fun k2 hk2 => hkl k2 (by simp [keysInFields, hk2]))
        (hkl k (by simp [keysInFields])) s hs
    · exact sanitizeFields_no_coord co c hmem hne hbf hfix hnone rest
        (fun k2 hk2 => hk k2 (by simp [keysInFields, hk2]))
        (fun k2 hk2 => hkl k2 (by simp [keysInFields, hk2])) s hs

/-- Tree-level non-leakage, array-items case. -/
theorem sanitizeItems_no_coord (co : Coords) (c : Str)
    (hmem : c ∈ co.projectIds ∨ c ∈ co.regions ∨ c ∈ co.dbInstances)
    (hne : c ≠ []) (hbf : BraceFree c)
    (hfix : ∀ lit ∈ fixedLits, ¬ c <:+: lit)
    (hnone : ∀ lit ∈ keyLits none, ¬ c <:+: lit) :
    ∀ (items : List J),
      (∀ k ∈ keysInItems items, ¬ c <:+: k) →
      (∀ k ∈ keysInItems items, ∀ lit ∈ keyLits (some k), ¬ c <:+: lit) →
      ∀ s ∈ strsInItems (sanitizeItems co items), ¬ c <:+: s
  | [], _, _ => by simp [sanitizeItems, strsInItems]
  | x :: rest, hk, hkl => by
    simp only [sanitizeItems, strsInItems, List.mem_append]
    intro s hs
    rcases hs with hs | hs
    · exact sanitizeValue_no_coord co c hmem hne hbf hfix hnone x none
        (fun k2 hk2 => hk k2 (by simp [keysInItems, hk2]))
        (fun k2 hk2 => hkl k2 (by simp [keysInItems, hk2])) hnone s hs
    · exact sanitizeItems_no_coord co c hmem hne hbf hfix hnone rest
        (fun k2 hk2 => hk k2 (by simp [keysInItems, hk2]))
        (fun k2 hk2 => hkl k2 (by simp [keysInItems, hk2])) s hs

end

/-! ### Claims C1 and C2 -/

/-- Input on which the claimed universal non-leakage fails: the discovered
project id `"ROJECT_ID"` is a substring of the replacement placeholder
itself. -/
def C1cex : J :=
  J.obj [("project_id".data, J.str "ROJECT_ID".data),
         ("note".data, J.str "ROJECT_ID".data)]

theorem C1cex_sanitized :
    sanitizeTenantStackTemplate C1cex =
      J.obj [("project_id".data, J.str "\x7b\x7bPROJECT_ID\x7d\x7d".data),
             ("note".data, J.str "\x7b\x7bPROJECT_ID\x7d\x7d".data)] := by
  simp [C1cex, sanitizeTenantStackTemplate, collectKnownCoordinates,
    collectWalk, collectFields, collectItems, coordUpdate, insertUnique,
    toLowerStr, sanitizeValue, sanitizeFields, sanitizeItems, sanitizeString,
    placeholderForKey, assocLookup, strictPlaceholders, urlKeywords,
    sensitiveKeywords, containsStr, replaceKnownTokens, replaceList,
    digitRunSub, digitRunMatchLen, normalizeKey, collapseNonAlnum,
    collapseNonAlnumAux, stripUnderscores, toUpperStr, looksLikeSecretValue,
    isAsciiAlnum]

/-- C1 (counterexample): for the input tree
`{"project_id": "ROJECT_ID", "note": "ROJECT_ID"}` the discovered coordinate
`"ROJECT_ID"` occurs as a substring of a string value of the sanitized
output (the value `"{{PROJECT_ID}}"` of both keys), refuting the claim that
no output string contains a discovered coordinate value. -/
theorem C1_counterexample :
    "ROJECT_ID".data ∈ allCoords C1cex ∧
    "\x7b\x7bPROJECT_ID\x7d\x7d".data ∈
      strsIn (sanitizeTenantStackTemplate C1cex) ∧
    "ROJECT_ID".data <:+: "\x7b\x7bPROJECT_ID\x7d\x7d".data := by
  refine ⟨?_, ?_, ?_⟩
  · simp [allCoords, C1cex, collectKnownCoordinates, collectWalk,
      collectFields, collectItems, coordUpdate, insertUnique, toLowerStr]
  · rw [C1cex_sanitized]
    simp [strsIn, strsInFields, strsInItems]
  · exact ⟨"\x7b\x7bP".data, "\x7d\x7d".data, by decide⟩

/-- C1 (amended): sanitizer non-leakage.  For every input tree whose
discovered coordinate values are nonempty, brace-free, not substrings of any
replacement literal the sanitizer can emit (fixed placeholders and the
key-derived `REPLACE_ME_`/`https://REPLACE_ME_` forms for the tree's keys),
and not substrings of any object key of the tree, no string occurring
anywhere in the output of `sanitize_tenant_stack_template` (key or string
value) contains any discovered coordinate value as a substring. -/
theorem C1_sanitizer_non_leakage (payload : J)
    (hne : ∀ c ∈ allCoords payload, c ≠ [])
    (hbf : ∀ c ∈ allCoords payload, BraceFree c)
    (hfix : ∀ c ∈ allCoords payload, ∀ lit ∈ fixedLits, ¬ c <:+: lit)
    (hkeyl : ∀ c ∈ allCoords payload, ∀ k ∈ keysIn payload,
      ∀ lit ∈ keyLits (some k), ¬ c <:+: lit)
    (hnone : ∀ c ∈ allCoords payload, ∀ lit ∈ keyLits none, ¬ c <:+: lit)
    (hkeys : ∀ c ∈ allCoords payload, ∀ k ∈ keysIn payload, ¬ c <:+: k) :
    ∀ s ∈ strsIn (sanitizeTenantStackTemplate payload),
      ∀ c ∈ allCoords payload, ¬ c <:+: s := by
  intro s hs c hc
  have hmem : c ∈ (collectKnownCoordinates payload).projectIds ∨
      c ∈ (collectKnownCoordinates payload).regions ∨
      c ∈ (collectKnownCoordinates payload).dbInstances := by
    rcases List.mem_append.mp hc with h | h
    · rcases List.mem_append.mp h with h2 | h2
      · exact Or.inl h2
      · exact Or.inr (Or.inl h2)
    · exact Or.inr (Or.inr h)
  exact sanitizeValue_no_coord (collectKnownCoordinates payload) c hmem
    (hne c hc) (hbf c hc) (hfix c hc) (hnone c hc) payload none
    (hkeys c hc) (hkeyl c hc) (hnone c hc) s hs

/-- A realistic payload satisfying the amended non-leakage side
conditions. -/
def C1wit : J :=
  J.obj [("project_id".data, J.str "my-proj-123".data),
         ("region".data, J.str "us-central1".data),
         ("note".data, J.str "deploy to my-proj-123 now".data)]

theorem C1wit_sanitized :
    sanitizeTenantStackTemplate C1wit =
      J.obj [("project_id".data, J.str "\x7b\x7bPROJECT_ID\x7d\x7d".data),
             ("region".data, J.str "\x7b\x7bREGION\x7d\x7d".data),
             ("note".data,
              J.str "deploy to \x7b\x7bPROJECT_ID\x7d\x7d now".data)] := by
  simp [C1wit, sanitizeTenantStackTemplate, collectKnownCoordinates,
    collectWalk, collectFields, collectItems, coordUpdate, insertUnique,
    toLowerStr, sanitizeValue, sanitizeFields, sanitizeItems, sanitizeString,
    placeholderForKey, assocLookup, strictPlaceholders, urlKeywords,
    sensitiveKeywords, containsStr, replaceKnownTokens, replaceList,
    digitRunSub, digitRunMatchLen, normalizeKey, collapseNonAlnum,
    collapseNonAlnumAux, stripUnderscores, toUpperStr, looksLikeSecretValue,
    isAsciiAlnum]

/-- Witness for the amended C1 theorem at the concrete payload `C1wit`: the
discovered project id does not leak into the sanitized note value. -/
theorem C1_sanitizer_non_leakage_witness :
    ¬ "my-proj-123".data <:+:
      "deploy to \x7b\x7bPROJECT_ID\x7d\x7d now".data := by
  have happ := C1_sanitizer_non_leakage C1wit
    (by decide) (by decide) (by decide) (by decide) (by decide) (by decide)
    ("deploy to \x7b\x7bPROJECT_ID\x7d\x7d now".data)
    (by rw [C1wit_sanitized]; simp [strsIn, strsInFields])
    ("my-proj-123".data) (by decide)
  exact happ

/-- The 12-digit value on which the claimed digit-run collapse fails. -/
def C2bug : J := J.obj [("note".data, J.str "123456789012".data)]

/-- C2 (code bug): the sanitizer is claimed (and the source evidently
intends, per the replacement literal `{{PROJECT_NUMBER}}`) to collapse every
run of ≥ 11 digits, but the pattern `r"\\b\\d{11,}\\b"` doubles its
backslashes inside a raw string, so it matches a literal backslash-`b`
followed by eleven or more letter-`d` characters — never digits.  The
12-digit value below passes through unchanged, while the literal text the
buggy pattern does match is replaced. -/
theorem C2_digit_run_code_bug :
    sanitizeTenantStackTemplate C2bug = C2bug ∧
    digitRunSub "x\\bddddddddddd\\by".data =
      "x\x7b\x7bPROJECT_NUMBER\x7d\x7dy".data := by
  constructor
  · simp [C2bug, sanitizeTenantStackTemplate, collectKnownCoordinates,
      collectWalk, collectFields, collectItems, coordUpdate, insertUnique,
      toLowerStr, sanitizeValue, sanitizeFields, sanitizeItems,
      sanitizeString, placeholderForKey, assocLookup, strictPlaceholders,
      urlKeywords, sensitiveKeywords, containsStr, replaceKnownTokens,
      replaceList, digitRunSub, digitRunMatchLen, normalizeKey,
      collapseNonAlnum, collapseNonAlnumAux, stripUnderscores, toUpperStr,
      looksLikeSecretValue, isAsciiAlnum]
  · simp [digitRunSub, digitRunMatchLen]

/-! ### Configuration resolver / finalizer (`main.py`) -/

/-- Errors raised by the handlers: `HTTPException(status, detail)`, or an
uncaught Python `TypeError`/`AttributeError` (e.g. `.upper()` on a
non-string truthy `key` field of an extra-env record). -/
inductive Err where
  | http (status : Nat) (detail : J)
  | typeError
deriving Repr, DecidableEq

/-- HTTP status of a failed call, if any. -/
def errStatus {α : Type} : Except Err α → Option Nat
  | Except.error (Err.http s _) => some s
  | _ => none

/-- Python `str.strip()` (whitespace strip). -/
def pyStrip (s : Str) : Str :=
  ((s.dropWhile Char.isWhitespace).reverse.dropWhile Char.isWhitespace).reverse

def digitChar (d : Nat) : Char := Char.ofNat (48 + d)

def natToStrAux : Nat → Nat → Str
  | 0, _ => []
  | fuel + 1, n =>
    if n < 10 then [digitChar n]
    else natToStrAux fuel (n / 10) ++ [digitChar (n % 10)]

/-- Decimal digits of a natural number (kernel-reducible). -/
def natToStr (n : Nat) : Str := natToStrAux (n + 1) n

mutual

/-- Python `repr(value)` on a JSON value (string escaping is not needed by
any claim and is modelled as plain single-quoting). -/
def pyRepr : J → Str
  | J.null => "None".data
  | J.bool b => if b then "True".data else "False".data
  | J.num n =>
    if n < 0 then '-' :: natToStr n.natAbs else natToStr n.natAbs
  | J.str s => '\'' :: (s ++ ['\''])
  | J.arr l => '[' :: (pyReprItems l ++ [']'])
  | J.obj l => '{' :: (pyReprFields l ++ ['}'])

def pyReprItems : List J → Str
  | [] => []
  | x :: rest =>
    match rest with
    | [] => pyRepr x
    | _ => pyRepr x ++ (", ".data ++ pyReprItems rest)

def pyReprFields : List (Str × J) → Str
  | [] => []
  | (k, v) :: rest =>
    match rest with
    | [] => '\'' :: (k ++ ('\'' :: (": ".data ++ pyRepr v)))
    | _ =>
      '\'' :: (k ++ ('\'' :: (": ".data ++ pyRepr v))) ++
        (", ".data ++ pyReprFields rest)

end

/-- Python `str(value)`: the raw text for strings, `repr` otherwise (Python
`str` and `repr` agree on `None`, booleans, numbers and containers). -/
def pyStr : J → Str
  | J.str s => s
  | v => pyRepr v

/-- `_placeholder_value`. -/
def placeholderValue (v : J) : Bool :=
  match v with
  | J.null => true
  | J.str s =>
    let stripped := pyStrip s
    if stripped = [] then true
    else if toUpperStr stripped = "PLACEHOLDER".data then true
    else if "REPLACE_ME_".data.isPrefixOf stripped then true
    else false
  | _ => false

/-- The list-shaped lookup loop of `_get_extra_env`. -/
def getExtraList : List J → Str → J
  | [], _ => J.null
  | J.obj fs :: rest, key =>
    if pyOr (pyGet fs "key".data) (pyGet fs "name".data) = J.str key then
      pyGet fs "value".data
    else getExtraList rest key
  | _ :: rest, key => getExtraList rest key

/-- `_get_extra_env` (`J.null` plays Python's `None` for "not found"). -/
def getExtraEnv (env : List (Str × J)) (key : Str) : J :=
  match pyGet env "extra_env".data with
  | J.obj extra => pyGet extra key
  | J.arr items => getExtraList items key
  | _ => J.null

/-- The list-rebuilding loop of `_set_extra_env`: returns the new entry list
and whether some record matched.  Non-dict entries are dropped; every
matching record gets `key`/`value` overwritten. -/
def setExtraList (key : Str) (value : J) : List J → (List J × Bool)
  | [] => ([], false)
  | J.obj fs :: rest =>
    let tail := setExtraList key value rest
    if pyOr (pyGet fs "key".data) (pyGet fs "name".data) = J.str key then
      (J.obj (pySet (pySet fs "key".data (J.str key)) "value".data value)
        :: tail.1, true)
    else (J.obj fs :: tail.1, tail.2)
  | _ :: rest => setExtraList key value rest

/-- `_set_extra_env`. -/
def setExtraEnv (env : List (Str × J)) (key : Str) (value : J) :
    List (Str × J) :=
  match pyGet env "extra_env".data with
  | J.obj extra => pySet env "extra_env".data (J.obj (pySet extra key value))
  | J.arr items =>
    let res := setExtraList key value items
    let newEntries :=
      if res.2 then res.1
      else res.1 ++ [J.obj [("key".data, J.str key), ("value".data, value)]]
    pySet env "extra_env".data (J.arr newEntries)
  | _ =>
    pySet env "extra_env".data
      (J.arr [J.obj [("key".data, J.str key), ("value".data, value)]])

/-- `_maybe_set_env_or_extra` (the `current`/`extra_val` locals are
inlined). -/
def maybeSetEnvOrExtra (env : List (Str × J)) (key : Str) (value : J) :
    List (Str × J) :=
  if pyGet env key ≠ J.null ∧ placeholderValue (pyGet env key) = true then
    pySet env key value
  else if getExtraEnv env key = J.null ∨
      placeholderValue (getExtraEnv env key) = true then
    setExtraEnv env key value
  else env

/-- A conditional `_maybe_set_env_or_extra` (`if cond: env = _maybe_set...`),
used for the username/password writes of `_apply_postgres_env`. -/
def condMaybeSet (env : List (Str × J)) (cond : Bool) (k : Str) (v : J) :
    List (Str × J) :=
  if cond then maybeSetEnvOrExtra env k v else env

/-- `_apply_postgres_env`. -/
def applyPostgresEnv (env : List (Str × J))
    (connectionName dbName dbUsername dbPassword canonicalPort : J) :
    List (Str × J) :=
  maybeSetEnvOrExtra
    (condMaybeSet
      (condMaybeSet
        (maybeSetEnvOrExtra
          (maybeSetEnvOrExtra env "POSTGRES_HOST".data
            (J.str ("/cloudsql/".data ++ pyStr connectionName)))
          "POSTGRES_DB".data dbName)
        (jTruthy dbUsername) "POSTGRES_USER".data dbUsername)
      (jTruthy dbPassword) "POSTGRES_PASSWORD".data dbPassword)
    "POSTGRES_PORT".data
    (if jTruthy canonicalPort then J.str (pyStr canonicalPort)
     else J.str "5432".data)

/-- `".".join(path)`. -/
def joinDots : List Str → Str
  | [] => []
  | [x] => x
  | x :: rest => x ++ ('.' :: joinDots rest)

/-- `critical_keys` of `_collect_placeholder_paths`. -/
def criticalKeys : List Str :=
  [ "DATABASE_URL".data, "DEFAULT_MAX_TOKENS".data, "REPO_URL".data,
    "GITHUB_TOKEN".data ]

/-- `upper_key.startswith(("DB_", "POSTGRES_"))`. -/
def startsWithCriticalPrefix (upperKey : Str) : Bool :=
  "DB_".data.isPrefixOf upperKey || "POSTGRES_".data.isPrefixOf upperKey

/-- `contains_bad_git` for a candidate value. -/
def containsBadGit (v : J) : Bool :=
  match v with
  | J.str s =>
    containsStr "REPLACE_ME_GITHUB_TOKEN".data s ||
      containsStr "REPLACE_ME_REPO_URL".data s
  | _ => false

mutual

/-- `_collect_placeholder_paths` (result instead of an `out` accumulator;
`Err.typeError` models the `AttributeError` Python raises when an extra-env
record carries a truthy non-string `key`). -/
def collectPlaceholderPaths : J → List Str → Except Err (List Str)
  | J.obj fields, path =>
    if hasKey fields "key".data ∧ hasKey fields "value".data ∧
        fields.length ≤ 3 then
      let envKey := pyOr (pyGet fields "key".data) (pyGet fields "name".data)
      let envVal := pyGet fields "value".data
      if jTruthy envKey then
        match envKey with
        | J.str ks =>
          let keyPath := joinDots (path ++ [ks])
          let upperKey := toUpperStr ks
          let isCritical := decide (upperKey ∈ criticalKeys) ||
            startsWithCriticalPrefix upperKey ||
            decide (upperKey = "DEFAULT_MAX_TOKENS".data)
          if isCritical ∧ placeholderValue envVal = true then
            Except.ok [keyPath ++ ('=' :: pyStr envVal)]
          else if containsBadGit envVal then
            Except.ok [keyPath ++ ('=' :: pyStr envVal)]
          else Except.ok []
        | _ => Except.error Err.typeError
      else
        let keyPath := joinDots (path ++ ["value".data])
        if containsBadGit envVal then
          Except.ok [keyPath ++ ('=' :: pyStr envVal)]
        else Except.ok []
    else collectFieldsPaths fields path
  | J.arr items, path => collectItemsPaths items 0 path
  | J.str s, path =>
    let lastKey := path.getLast?.getD []
    let upperKey := toUpperStr lastKey
    let isCritical := decide (upperKey ∈ criticalKeys) ||
      startsWithCriticalPrefix upperKey
    let badGit := containsBadGit (J.str s)
    if (isCritical ∧ placeholderValue (J.str s) = true) ∨ badGit = true then
      Except.ok [joinDots path ++ ('=' :: s)]
    else Except.ok []
  | _, _ => Except.ok []

def collectFieldsPaths : List (Str × J) → List Str → Except Err (List Str)
  | [], _ => Except.ok []
  | (k, v) :: rest, path => do
    let a ← collectPlaceholderPaths v (path ++ [k])
    let b ← collectFieldsPaths rest path
    pure (a ++ b)

def collectItemsPaths : List J → Nat → List Str → Except Err (List Str)
  | [], _, _ => Except.ok []
  | x :: rest, idx, path => do
    let a ← collectPlaceholderPaths x
      (path ++ [('[' :: natToStr idx) ++ [']']])
    let b ← collectItemsPaths rest (idx + 1) path
    pure (a ++ b)

end

/-- Lookup in the agent-name → canonical-environment mapping (keys are the
raw `name` values, exactly as Python dict keys). -/
def jmapLookup (m : List (J × List (Str × J))) (k : J) :
    Option (List (Str × J)) :=
  match m with
  | [] => none
  | (k', v) :: rest => if k' = k then some v else jmapLookup rest k

/-- `mapping[name] = env` on the agent-name mapping. -/
def jmapSet (m : List (J × List (Str × J))) (k : J) (v : List (Str × J)) :
    List (J × List (Str × J)) :=
  match m with
  | [] => [(k, v)]
  | (k', v') :: rest =>
    if k' = k then (k', v) :: rest else (k', v') :: jmapSet rest k v

/-- The loop body of `_canonical_agent_env_by_name`. -/
def canonicalFold (items : List J) (m : List (J × List (Str × J))) :
    List (J × List (Str × J)) :=
  match items with
  | [] => m
  | agent :: rest =>
    match agent with
    | J.obj afields =>
      let name := pyGet afields "name".data
      match pyGet afields "environment".data with
      | J.obj env =>
        if jTruthy name then canonicalFold rest (jmapSet m name env)
        else canonicalFold rest m
      | _ => canonicalFold rest m
    | _ => canonicalFold rest m

/-- `_canonical_agent_env_by_name`.  Iterating a truthy non-iterable
`agents` value raises `TypeError` in Python; iterating a string or a dict
visits strings, which the `isinstance(agent, dict)` guard skips. -/
def canonicalAgentEnvByName (canonical : List (Str × J)) :
    Except Err (List (J × List (Str × J))) :=
  match pyOr (pyGet canonical "agents".data) (J.arr []) with
  | J.arr items => Except.ok (canonicalFold items [])
  | J.str _ => Except.ok []
  | J.obj _ => Except.ok []
  | _ => Except.error Err.typeError

/-- `canonical_env.get(key) if canonical_env else None`. -/
def ceGet (canonicalEnv : Option (List (Str × J))) (k : Str) : J :=
  match canonicalEnv with
  | some ce => pyGet ce k
  | none => J.null

/-- `_get_extra_env(canonical_env, key) or canonical_env.get(key)` with a
`None` fallback when there is no canonical environment. -/
def ceGetEither (canonicalEnv : Option (List (Str × J))) (k : Str) : J :=
  match canonicalEnv with
  | some ce => pyOr (getExtraEnv ce k) (pyGet ce k)
  | none => J.null

/-- The resolved db username: tenant metadata first, canonical fallback. -/
def resolvedDbUsername (meta : List (Str × J))
    (canonicalEnv : Option (List (Str × J))) : J :=
  pyOr (pyGet meta "db_username".data) (ceGet canonicalEnv "db_username".data)

def resolvedDbPassword (meta : List (Str × J))
    (canonicalEnv : Option (List (Str × J))) : J :=
  pyOr (pyGet meta "db_password".data) (ceGet canonicalEnv "db_password".data)

/-- `f"/cloudsql/{db_instance}"`. -/
def dbSocketStr (dbInstance : J) : Str := "/cloudsql/".data ++ pyStr dbInstance

/-- `f"postgresql://{db_username}:{db_password}@/{db_name}?host={db_socket}"`. -/
def databaseUrlStr (dbUsername dbPassword dbName dbInstance : J) : Str :=
  "postgresql://".data ++ pyStr dbUsername ++ (':' :: pyStr dbPassword) ++
    ("@/".data ++ pyStr dbName) ++ ("?host=".data ++ dbSocketStr dbInstance)

/-- The fully wired environment of the `connectDatabase` branch (direct
sets, the three conditional writes, then `_apply_postgres_env`). -/
def dbWiredEnv (meta : List (Str × J))
    (canonicalEnv : Option (List (Str × J))) (env : List (Str × J)) :
    List (Str × J) :=
  applyPostgresEnv
    (maybeSetEnvOrExtra
      (maybeSetEnvOrExtra
        (maybeSetEnvOrExtra
          (pySet
            (pySet
              (pySet
                (pySet env "database_instance".data
                  (pyGet meta "database_instance".data))
                "database_name".data (pyGet meta "database_name".data))
              "db_username".data (resolvedDbUsername meta canonicalEnv))
            "db_password".data (resolvedDbPassword meta canonicalEnv))
          "DATABASE_URL".data
          (J.str (databaseUrlStr (resolvedDbUsername meta canonicalEnv)
            (resolvedDbPassword meta canonicalEnv)
            (pyGet meta "database_name".data)
            (pyGet meta "database_instance".data))))
        "DB_HOST".data
        (J.str (dbSocketStr (pyGet meta "database_instance".data))))
      "DB_CONNECTION".data
      (J.str (dbSocketStr (pyGet meta "database_instance".data))))
    (pyGet meta "database_instance".data) (pyGet meta "database_name".data)
    (resolvedDbUsername meta canonicalEnv)
    (resolvedDbPassword meta canonicalEnv)
    (ceGetEither canonicalEnv "POSTGRES_PORT".data)

/-- The `if connect_db:` part of the per-agent body. -/
def wireDbPart (meta : List (Str × J))
    (canonicalEnv : Option (List (Str × J))) (env : List (Str × J)) :
    Except Err (List (Str × J)) :=
  if jTruthy (pyGet env "connectDatabase".data) then
    if ¬ jTruthy (pyGet meta "database_instance".data) ∨
        ¬ jTruthy (pyGet meta "database_name".data) then
      Except.error (Err.http 400 (J.str "Database instance and name are required when connectDatabase is enabled.".data))
    else if ¬ jTruthy (resolvedDbUsername meta canonicalEnv) ∨
        ¬ jTruthy (resolvedDbPassword meta canonicalEnv) then
      Except.error (Err.http 400 (J.str "Database username/password are required when connectDatabase is enabled.".data))
    else
      Except.ok (dbWiredEnv meta canonicalEnv env)
  else
    Except.ok env

/-- The `DEFAULT_MAX_TOKENS` resolution at the end of the per-agent body. -/
def wireMaxTokens (canonicalEnv : Option (List (Str × J)))
    (env : List (Str × J)) : List (Str × J) :=
  if placeholderValue (pyOr (getExtraEnv env "DEFAULT_MAX_TOKENS".data)
      (pyGet env "DEFAULT_MAX_TOKENS".data)) then
    setExtraEnv env "DEFAULT_MAX_TOKENS".data
      (if jTruthy (ceGetEither canonicalEnv "DEFAULT_MAX_TOKENS".data) then
        J.str (pyStr (ceGetEither canonicalEnv "DEFAULT_MAX_TOKENS".data))
       else J.str "16384".data)
  else env

/-- The per-agent body of `finalize_tenant_userrequirements`: database
wiring (when `connectDatabase` is truthy) followed by the
`DEFAULT_MAX_TOKENS` default. -/
def wireAgentEnv (meta : List (Str × J))
    (canonicalEnv : Option (List (Str × J))) (env : List (Str × J)) :
    Except Err (List (Str × J)) :=
  match wireDbPart meta canonicalEnv env with
  | Except.ok env2 => Except.ok (wireMaxTokens canonicalEnv env2)
  | Except.error e => Except.error e

/-- One iteration of the loop over `finalized["agents"]`: dict-shaped agents
with a dict-shaped `environment` get their environment rewired, everything
else passes through. -/
def wireAgentStep (meta : List (Str × J))
    (canon : List (J × List (Str × J))) (agent : J) : Except Err J :=
  match agent with
  | J.obj afields =>
    match pyGet afields "environment".data with
    | J.obj env =>
      match wireAgentEnv meta (jmapLookup canon (pyGet afields "name".data))
          env with
      | Except.ok env' =>
        Except.ok (J.obj (pySet afields "environment".data (J.obj env')))
      | Except.error e => Except.error e
    | _ => Except.ok agent
  | _ => Except.ok agent

/-- The loop over `finalized["agents"]`. -/
def wireAgents (meta : List (Str × J))
    (canon : List (J × List (Str × J))) : List J → Except Err (List J)
  | [] => Except.ok []
  | agent :: rest =>
    match wireAgentStep meta canon agent with
    | Except.ok agent' =>
      match wireAgents meta canon rest with
      | Except.ok rest' => Except.ok (agent' :: rest')
      | Except.error e => Except.error e
    | Except.error e => Except.error e

/-- The wiring phase of `finalize_tenant_userrequirements`: when
`finalized["agents"]` is a list, rewire every agent and store the result
back, otherwise leave the tree alone. -/
def wireFinalized (meta : List (Str × J))
    (canonicalByName : List (J × List (Str × J)))
    (tenantUr : List (Str × J)) : Except Err (List (Str × J)) :=
  match pyGet tenantUr "agents".data with
  | J.arr agents =>
    match wireAgents meta canonicalByName agents with
    | Except.ok agents' =>
      Except.ok (pySet tenantUr "agents".data (J.arr agents'))
    | Except.error e => Except.error e
  | _ => Except.ok tenantUr

/-- `finalize_tenant_userrequirements`.  The deep copy
`json.loads(json.dumps(tenant_ur))` is the identity on our JSON trees, so it
is not represented; mutation of the copy is modelled by threading the
tree. -/
def finalizeTenantUserrequirements (tenantUr meta canonicalUr :
    List (Str × J)) : Except Err (List (Str × J)) :=
  match canonicalAgentEnvByName canonicalUr with
  | Except.error e => Except.error e
  | Except.ok canonicalByName =>
    match wireFinalized meta canonicalByName tenantUr with
    | Except.error e => Except.error e
    | Except.ok finalized =>
      match collectPlaceholderPaths (J.obj finalized) [] with
      | Except.error e => Except.error e
      | Except.ok placeholders =>
        if placeholders ≠ [] then
          Except.error (Err.http 400 (J.obj
            [ ("message".data,
               J.str "Tenant stack contains unresolved critical placeholders.".data),
              ("placeholders".data, J.arr (placeholders.map J.str)) ]))
        else Except.ok finalized

/-! ### Frame lemmas about the environment operations -/

/-- Presence-aware lookup (`none` iff the key is absent). -/
def lookupField (env : List (Str × J)) (k : Str) : Option J :=
  match env with
  | [] => none
  | (k', v) :: rest => if k' = k then some v else lookupField rest k

theorem pyGet_eq_lookupField (env : List (Str × J)) (k : Str) :
    pyGet env k = (lookupField env k).getD J.null := by
  induction env with
  | nil => rfl
  | cons p rest ih =>
    rw [pyGet, lookupField]
    split
    · rfl
    · exact ih

theorem lookupField_pySet_self (env : List (Str × J)) (k : Str) (v : J) :
    lookupField (pySet env k v) k = some v := by
  induction env with
  | nil => simp [pySet, lookupField]
  | cons p rest ih =>
    rw [pySet]
    split
    · rename_i h
      simp [lookupField, h]
    · rename_i h
      rw [lookupField, if_neg h]
      exact ih

theorem lookupField_pySet_ne (env : List (Str × J)) (k k2 : Str) (v : J)
    (h : k ≠ k2) : lookupField (pySet env k v) k2 = lookupField env k2 := by
  induction env with
  | nil => simp [pySet, lookupField, h]
  | cons p rest ih =>
    rw [pySet]
    split
    · rename_i he
      have hp : p.1 ≠ k2 := fun hq => h (he.symm.trans hq)
      rw [lookupField, lookupField, if_neg hp, if_neg hp]
    · rw [lookupField, lookupField]
      split
      · rfl
      · exact ih

theorem pySet_self (env : List (Str × J)) (k : Str) (v : J)
    (h : lookupField env k = some v) : pySet env k v = env := by
  induction env with
  | nil => cases h
  | cons p rest ih =>
    rw [lookupField] at h
    rw [pySet]
    split
    · rename_i he
      rw [if_pos he] at h
      cases Option.some_injective _ h
      rfl
    · rename_i he
      rw [if_neg he] at h
      rw [ih h]

theorem getExtraEnv_pySet_ne (env : List (Str × J)) (k k2 : Str) (v : J)
    (h : k ≠ "extra_env".data) :
    getExtraEnv (pySet env k v) k2 = getExtraEnv env k2 := by
  rw [getExtraEnv, getExtraEnv, pyGet_eq_lookupField, pyGet_eq_lookupField,
    lookupField_pySet_ne env k _ v h]

theorem lookupField_setExtraEnv_ne (env : List (Str × J)) (k k2 : Str)
    (v : J) (h : k2 ≠ "extra_env".data) :
    lookupField (setExtraEnv env k v) k2 = lookupField env k2 := by
  rw [setExtraEnv]
  split
  · rw [lookupField_pySet_ne _ _ _ _ (fun he => h he.symm)]
  · rw [lookupField_pySet_ne _ _ _ _ (fun he => h he.symm)]
  · rw [lookupField_pySet_ne _ _ _ _ (fun he => h he.symm)]

theorem lookupField_maybeSet_ne (env : List (Str × J)) (k k2 : Str) (v : J)
    (hne : k ≠ k2) (hex : k2 ≠ "extra_env".data) :
    lookupField (maybeSetEnvOrExtra env k v) k2 = lookupField env k2 := by
  rw [maybeSetEnvOrExtra]
  split
  · exact lookupField_pySet_ne env k k2 v hne
  · split
    · exact lookupField_setExtraEnv_ne env k k2 v hex
    · rfl

/-- `_maybe_set_env_or_extra` is a no-op when the top-level value is not a
present-and-placeholder value and the extra-env value is present and not a
placeholder. -/
theorem maybeSet_noop (env : List (Str × J)) (k : Str) (v : J)
    (htop : ¬ (pyGet env k ≠ J.null ∧ placeholderValue (pyGet env k) = true))
    (hextra : getExtraEnv env k ≠ J.null ∧
      placeholderValue (getExtraEnv env k) = false) :
    maybeSetEnvOrExtra env k v = env := by
  rw [maybeSetEnvOrExtra, if_neg htop, if_neg]
  intro hc
  rcases hc with hc | hc
  · exact hextra.1 hc
  · rw [hextra.2] at hc
    cases hc

/-! ### Claim C4: resolver fail-closed and the exact placeholder path -/

def mkObj (l : List (String × J)) : List (Str × J) :=
  l.map (fun kv => (kv.1.data, kv.2))

def C4tenant : List (Str × J) :=
  mkObj [("agents", J.arr [J.obj (mkObj [("environment",
    J.obj (mkObj [("GITHUB_TOKEN",
      J.str "REPLACE_ME_GITHUB_TOKEN".data)]))])])]

/-- C4 (counterexample): on the tenant tree whose only violation is
`agents[0].environment.GITHUB_TOKEN = "REPLACE_ME_GITHUB_TOKEN"`, finalize
does fail with status 400, but the reported path joins every path segment —
array indices included — with a dot: the list is
`["agents.[0].environment.GITHUB_TOKEN=REPLACE_ME_GITHUB_TOKEN"]`, not the
claimed `["agents[0].environment.GITHUB_TOKEN=REPLACE_ME_GITHUB_TOKEN"]`. -/
theorem C4_counterexample :
    finalizeTenantUserrequirements C4tenant [] [] =
      Except.error (Err.http 400 (J.obj
        [ ("message".data,
           J.str "Tenant stack contains unresolved critical placeholders.".data),
          ("placeholders".data, J.arr [J.str
            "agents.[0].environment.GITHUB_TOKEN=REPLACE_ME_GITHUB_TOKEN".data]) ])) ∧
    "agents.[0].environment.GITHUB_TOKEN=REPLACE_ME_GITHUB_TOKEN".data ≠
      "agents[0].environment.GITHUB_TOKEN=REPLACE_ME_GITHUB_TOKEN".data := by
  constructor
  · rfl
  · decide

/-- C4 (amended): resolver fail-closed with exact paths.  For the tenant
tree whose only violation is `agents[0].environment.GITHUB_TOKEN =
"REPLACE_ME_GITHUB_TOKEN"` (empty tenant metadata and canonical tree),
finalize fails with a Validation (400) error whose placeholder list is
exactly `["agents.[0].environment.GITHUB_TOKEN=REPLACE_ME_GITHUB_TOKEN"]` —
the violated field's exact path with all segments dot-joined — and no
finalized tree is returned. -/
theorem C4_resolver_fail_closed :
    finalizeTenantUserrequirements C4tenant [] [] =
      Except.error (Err.http 400 (J.obj
        [ ("message".data,
           J.str "Tenant stack contains unresolved critical placeholders.".data),
          ("placeholders".data, J.arr [J.str
            "agents.[0].environment.GITHUB_TOKEN=REPLACE_ME_GITHUB_TOKEN".data]) ])) := by
  rfl

/-! ### Claim C6: the DB wiring scenario -/

def C6meta : List (Str × J) :=
  mkObj [("database_instance", J.str "proj:region:inst".data),
         ("database_name", J.str "db1".data),
         ("db_username", J.str "u".data),
         ("db_password", J.str "p".data)]

def C6tenant : List (Str × J) :=
  mkObj [("agents", J.arr [J.obj (mkObj [("environment",
    J.obj (mkObj [("connectDatabase", J.bool true)]))])])]

/-- The first agent's environment object of a finalized tree. -/
def firstAgentEnv (r : List (Str × J)) : List (Str × J) :=
  match pyGet r "agents".data with
  | J.arr (J.obj afields :: _) =>
    match pyGet afields "environment".data with
    | J.obj env => env
    | _ => []
  | _ => []

/-- Read an environment key the way the resolver does: top level first, then
`extra_env`. -/
def envReadEither (env : List (Str × J)) (key : Str) : J :=
  if pyGet env key ≠ J.null then pyGet env key else getExtraEnv env key

/-- C6: DB wiring scenario.  With `connectDatabase` truthy and the given
tenant metadata, finalize succeeds and the finalized agent environment (read
through the top level or `extra_env`) holds the claimed `DATABASE_URL` and
`POSTGRES_HOST`. -/
theorem C6_db_wiring :
    (finalizeTenantUserrequirements C6tenant C6meta []).map (fun r =>
      (envReadEither (firstAgentEnv r) "DATABASE_URL".data,
       envReadEither (firstAgentEnv r) "POSTGRES_HOST".data)) =
    Except.ok
      (J.str "postgresql://u:p@/db1?host=/cloudsql/proj:region:inst".data,
       J.str "/cloudsql/proj:region:inst".data) := by
  rfl

/-! ### Claim C10: list-shaped `_set_extra_env` -/

/-- Whether a list entry is a record matching `key` (via its `key` or,
falling back, `name` field). -/
def entryMatches (key : Str) (e : J) : Bool :=
  match e with
  | J.obj fs =>
    decide (pyOr (pyGet fs "key".data) (pyGet fs "name".data) = J.str key)
  | _ => false

/-- The claim's description of how one original entry is carried over:
dict-shaped entries are kept (updated in place when they match), everything
else is dropped. -/
def specUpdateEntry (key : Str) (value : J) (e : J) : Option J :=
  match e with
  | J.obj fs =>
    some (if entryMatches key (J.obj fs) then
      J.obj (pySet (pySet fs "key".data (J.str key)) "value".data value)
    else J.obj fs)
  | _ => none

theorem setExtraList_spec (key : Str) (value : J) :
    ∀ l : List J, setExtraList key value l =
      (l.filterMap (specUpdateEntry key value), l.any (entryMatches key)) := by
  intro l
  induction l with
  | nil => rfl
  | cons e rest ih =>
    match e with
    | J.obj fs =>
      rw [setExtraList, ih]
      by_cases hm :
          pyOr (pyGet fs "key".data) (pyGet fs "name".data) = J.str key
      · simp [specUpdateEntry, entryMatches, hm]
      · simp [specUpdateEntry, entryMatches, hm]
    | J.null => simpa [setExtraList, specUpdateEntry, entryMatches] using ih
    | J.bool b => simpa [setExtraList, specUpdateEntry, entryMatches] using ih
    | J.num n => simpa [setExtraList, specUpdateEntry, entryMatches] using ih
    | J.str s => simpa [setExtraList, specUpdateEntry, entryMatches] using ih
    | J.arr a => simpa [setExtraList, specUpdateEntry, entryMatches] using ih

/-- C10: when `extra_env` is a list, `_set_extra_env` replaces it with the
dict-shaped entries of the original (each matching record updated in place
with the new `key`/`value`), drops every non-dict element, and appends a
fresh `{key, value}` record exactly when no entry matched. -/
theorem C10_set_extra_env_list (env : List (Str × J)) (key : Str) (value : J)
    (l : List J) (h : pyGet env "extra_env".data = J.arr l) :
    setExtraEnv env key value =
      pySet env "extra_env".data (J.arr (
        if l.any (entryMatches key) then
          l.filterMap (specUpdateEntry key value)
        else
          l.filterMap (specUpdateEntry key value) ++
            [J.obj [("key".data, J.str key), ("value".data, value)]])) := by
  rw [setExtraEnv, h]
  simp only [setExtraList_spec]

def C10env : List (Str × J) :=
  mkObj [("extra_env", J.arr
    [ J.obj (mkObj [("key", J.str "A".data), ("value", J.str "1".data)]),
      J.str "junk".data,
      J.num 7 ])]

def C10list : List J :=
  [ J.obj (mkObj [("key", J.str "A".data), ("value", J.str "1".data)]),
    J.str "junk".data,
    J.num 7 ]

theorem C10_set_extra_env_list_witness :
    setExtraEnv C10env "A".data (J.str "2".data) =
      pySet C10env "extra_env".data (J.arr (
        if C10list.any (entryMatches "A".data) then
          C10list.filterMap (specUpdateEntry "A".data (J.str "2".data))
        else
          C10list.filterMap (specUpdateEntry "A".data (J.str "2".data)) ++
            [J.obj [("key".data, J.str "A".data),
                    ("value".data, J.str "2".data)]])) :=
  C10_set_extra_env_list C10env "A".data (J.str "2".data) C10list rfl

/-! ### Claim C5: never-overwrite conditional write -/

theorem pyGet_pySet_ne (env : List (Str × J)) (k k2 : Str) (v : J)
    (h : k ≠ k2) : pyGet (pySet env k v) k2 = pyGet env k2 := by
  rw [pyGet_eq_lookupField, pyGet_eq_lookupField, lookupField_pySet_ne _ _ _ _ h]

theorem getExtraEnv_setExtraEnv_other (env : List (Str × J)) (k k2 : Str)
    (v : J) (hk : k2 ≠ "extra_env".data) :
    pyGet (setExtraEnv env k v) k2 = pyGet env k2 := by
  rw [setExtraEnv]
  split
  · exact pyGet_pySet_ne _ _ _ _ (fun he => hk he.symm)
  · exact pyGet_pySet_ne _ _ _ _ (fun he => hk he.symm)
  · exact pyGet_pySet_ne _ _ _ _ (fun he => hk he.symm)

/-- C5 (amended): `_maybe_set_env_or_extra` never overwrites a genuine value
at its own location: a present, non-placeholder top-level value is left
unchanged, and a present, non-placeholder `extra_env` value is left
unchanged.  (When a genuine value sits only at the top level, the helper
still writes the computed value into `extra_env` — see the
counterexample — so only the per-location guarantee holds.) -/
theorem C5_never_overwrite (env : List (Str × J)) (key : Str) (value : J)
    (hk : key ≠ "extra_env".data) :
    (pyGet env key ≠ J.null ∧ placeholderValue (pyGet env key) = false →
      pyGet (maybeSetEnvOrExtra env key value) key = pyGet env key) ∧
    (getExtraEnv env key ≠ J.null ∧
        placeholderValue (getExtraEnv env key) = false →
      getExtraEnv (maybeSetEnvOrExtra env key value) key =
        getExtraEnv env key) := by
  constructor
  · rintro ⟨h1, h2⟩
    rw [maybeSetEnvOrExtra, if_neg (fun hc => by rw [h2] at hc; cases hc.2)]
    split
    · exact getExtraEnv_setExtraEnv_other env key key value hk
    · rfl
  · rintro ⟨h1, h2⟩
    rw [maybeSetEnvOrExtra]
    split
    · exact getExtraEnv_pySet_ne env key key value hk
    · rw [if_neg]
      intro hc
      rcases hc with hc | hc
      · exact h1 hc
      · rw [h2] at hc
        cases hc

def C5wenv : List (Str × J) :=
  mkObj [("DB_HOST", J.str "h".data),
         ("extra_env", J.obj (mkObj [("DB_HOST", J.str "h2".data)]))]

theorem C5_never_overwrite_witness :
    pyGet (maybeSetEnvOrExtra C5wenv "DB_HOST".data (J.str "new".data))
        "DB_HOST".data = pyGet C5wenv "DB_HOST".data ∧
    getExtraEnv (maybeSetEnvOrExtra C5wenv "DB_HOST".data (J.str "new".data))
        "DB_HOST".data = getExtraEnv C5wenv "DB_HOST".data :=
  ⟨(C5_never_overwrite C5wenv "DB_HOST".data (J.str "new".data)
      (by decide)).1 ⟨by decide, by decide⟩,
   (C5_never_overwrite C5wenv "DB_HOST".data (J.str "new".data)
      (by decide)).2 ⟨by decide, by decide⟩⟩

def C5meta : List (Str × J) :=
  mkObj [("database_instance", J.str "proj:region:inst".data),
         ("database_name", J.str "db1".data),
         ("db_username", J.str "u".data),
         ("db_password", J.str "p".data)]

def C5env0 : List (Str × J) :=
  mkObj [("connectDatabase", J.bool true),
         ("DB_HOST", J.str "realhost".data)]

def C5tenant : List (Str × J) :=
  mkObj [("agents", J.arr [J.obj (mkObj [("environment", J.obj C5env0)])])]

/-- C5 (counterexample): the agent environment holds the genuine value
`"realhost"` for `DB_HOST` at the top level (and `extra_env` has no entry
for `DB_HOST`), yet a successful finalize adds a `DB_HOST` record with the
computed socket path to `extra_env` — the environment is not left unchanged
for that key. -/
theorem C5_counterexample :
    pyGet C5env0 "DB_HOST".data = J.str "realhost".data ∧
    placeholderValue (pyGet C5env0 "DB_HOST".data) = false ∧
    getExtraEnv C5env0 "DB_HOST".data = J.null ∧
    (finalizeTenantUserrequirements C5tenant C5meta []).map
      (fun r => getExtraEnv (firstAgentEnv r) "DB_HOST".data) =
      Except.ok (J.str "/cloudsql/proj:region:inst".data) := by
  exact ⟨rfl, rfl, rfl, rfl⟩

/-! ### Credential store (`main.py`) -/

/-- The two credential classes (`VALID_CREDENTIAL_TYPES`). -/
inductive CredClass where
  | source
  | target
deriving Repr, DecidableEq

/-- A credential store record: `{"selectedId": ..., "entries": {...}}`. -/
structure Store where
  selectedId : J
  entries : List (Str × J)
deriving Repr, DecidableEq

/-- `_empty_store`. -/
def emptyStore : Store := ⟨J.null, []⟩

/-- `VALID_ENTRY_STATUSES`. -/
def validEntryStatuses : List Str :=
  ["unverified".data, "verified".data, "primed".data]

/-- `_normalize_entry`. -/
def normalizeEntry (entry : J) : J :=
  match entry with
  | J.obj fs =>
    let status :=
      match pyOr (pyGet fs "status".data) (J.str "unverified".data) with
      | J.str s =>
        if s ∈ validEntryStatuses then J.str s else J.str "unverified".data
      | _ => J.str "unverified".data
    J.obj
      [ ("credential".data, pyGet fs "credential".data),
        ("label".data, pyGet fs "label".data),
        ("createdAt".data, pyOr (pyGet fs "createdAt".data)
          (pyOr (pyGet fs "created_at".data) J.null)),
        ("status".data, status),
        ("projectId".data, pyOr (pyGet fs "projectId".data)
          (pyGet fs "project_id".data)),
        ("verifiedAt".data, pyOr (pyGet fs "verifiedAt".data)
          (pyGet fs "verified_at".data)),
        ("primedAt".data, pyOr (pyGet fs "primedAt".data)
          (pyGet fs "primed_at".data)),
        ("lastCheck".data, pyOr (pyGet fs "lastCheck".data)
          (pyGet fs "last_check".data)),
        ("lastPrimeResult".data, pyOr (pyGet fs "lastPrimeResult".data)
          (pyGet fs "last_prime_result".data)) ]
  | _ =>
    J.obj
      [ ("credential".data, J.null),
        ("label".data, J.null),
        ("createdAt".data, J.null),
        ("status".data, J.str "unverified".data) ]

/-- `_entry_activation_allowed` (on the entry's fields). -/
def entryActivationAllowed (c : CredClass) (fs : List (Str × J)) : Bool :=
  if pyGet fs "status".data = J.str "primed".data then true
  else if c = CredClass.source ∧
      pyGet fs "status".data = J.str "verified".data then true
  else false

/-- `_normalize_store_payload` on an already store-shaped record (the raw
JSON loaded from disk/GCS round-trips to exactly this shape; a non-dict
payload is replaced by the empty store before this point). -/
def normalizeStorePayload (c : CredClass) (raw : Store) : Store :=
  let entries := raw.entries.map (fun kv => (kv.1, normalizeEntry kv.2))
  let selected :=
    if jTruthy raw.selectedId then
      match raw.selectedId with
      | J.str sid =>
        match lookupField entries sid with
        | some entry =>
          if jTruthy entry then
            match entry with
            | J.obj fs =>
              if entryActivationAllowed c fs then J.str sid else J.null
            | _ => J.null
          else J.null
        | none => J.null
      | _ => J.null
    else raw.selectedId
  ⟨selected, entries⟩

/-- The id actually used by `credential_store_add`: the request's `id` when
it is a nonempty string, else a fresh `uuid4().hex`. -/
def addResolvedId (body : List (Str × J)) (freshId : Str) : Str :=
  match pyGet body "id".data with
  | J.str s => if s ≠ [] then s else freshId
  | _ => freshId

/-- The entry dict created by `credential_store_add`. -/
def addEntryObj (body : List (Str × J)) (freshId : Str) (now : Str)
    (credFs : List (Str × J)) : J :=
  J.obj
    [ ("credential".data, J.obj credFs),
      ("label".data, pyOr (pyGet body "label".data)
        (J.str (addResolvedId body freshId))),
      ("createdAt".data, pyOr (pyGet body "createdAt".data) (J.str now)),
      ("status".data, J.str "unverified".data),
      ("projectId".data, pyGet credFs "project_id".data) ]

/-- `credential_store_add` (the fresh uuid and the current timestamp enter
as parameters). -/
def credentialStoreAdd (c : CredClass) (store : Store)
    (body : List (Str × J)) (freshId : Str) (now : Str) :
    Except Err (Store × Str) :=
  match pyGet body "credential".data with
  | J.obj credFs =>
    Except.ok
      (⟨(if pyKeyMem store.selectedId (pySet store.entries
            (addResolvedId body freshId) (addEntryObj body freshId now credFs))
         then store.selectedId else J.null),
        pySet store.entries (addResolvedId body freshId)
          (addEntryObj body freshId now credFs)⟩,
       addResolvedId body freshId)
  | _ => Except.error (Err.http 400 (J.str "credential must be an object".data))

/-- `credential_store_select`. -/
def credentialStoreSelect (c : CredClass) (store : Store)
    (body : List (Str × J)) : Except Err Store :=
  let selectedId := pyGet body "selectedId".data
  if selectedId ≠ J.null ∧ pyKeyMem selectedId store.entries = false then
    Except.error (Err.http 404 (J.str "Credential not found".data))
  else if jTruthy selectedId then
    match selectedId with
    | J.str sid =>
      match lookupField store.entries sid with
      | some entry =>
        if ¬ jTruthy entry then
          Except.error (Err.http 404 (J.str "Credential not found".data))
        else
          match entry with
          | J.obj fs =>
            if entryActivationAllowed c fs then
              Except.ok ⟨selectedId, store.entries⟩
            else if c = CredClass.source then
              Except.error (Err.http 400 (J.str "Source credential must be verified or primed before activation.".data))
            else
              Except.error (Err.http 400 (J.str "Target credential must be primed before activation.".data))
          | _ => Except.error Err.typeError
      | none =>
        Except.error (Err.http 404 (J.str "Credential not found".data))
    | _ => Except.error Err.typeError
  else
    Except.ok ⟨selectedId, store.entries⟩

/-- `del store["entries"][entry_id]`. -/
def delField : List (Str × J) → Str → List (Str × J)
  | [], _ => []
  | (k, v) :: rest, key =>
    if k = key then rest else (k, v) :: delField rest key

/-- `credential_store_delete`. -/
def credentialStoreDelete (c : CredClass) (store : Store) (entryId : Str) :
    Except Err Store :=
  if hasKey store.entries entryId = false then
    Except.error (Err.http 404 (J.str "Credential not found".data))
  else
    let entries' := delField store.entries entryId
    let selected' :=
      if store.selectedId = J.str entryId then J.null else store.selectedId
    Except.ok ⟨selected', entries'⟩

/-- The resolved `project_id` of `credential_store_verify`. -/
def verifyProjectId (body entryFs credFs : List (Str × J)) : J :=
  pyOr (pyGet body "project_id".data)
    (pyOr (pyGet body "projectId".data)
      (pyOr (pyGet entryFs "projectId".data)
        (pyGet credFs "project_id".data)))

/-- The status `credential_store_verify` writes: `"primed"` stays
`"primed"`, anything else becomes `"verified"`. -/
def verifiedStatus (entryFs : List (Str × J)) : J :=
  if pyGet entryFs "status".data = J.str "primed".data then
    J.str "primed".data
  else J.str "verified".data

/-- The compact `lastCheck` snapshot of the probe payload. -/
def lastCheckObj (payloadFs : List (Str × J)) : J :=
  J.obj
    [ ("status".data, pyGet payloadFs "status".data),
      ("missing_bucket_count".data,
       pyGet payloadFs "missing_bucket_count".data),
      ("missing_service_account_count".data,
       pyGet payloadFs "missing_service_account_count".data) ]

/-- The mutated entry fields of `credential_store_verify`, following the
source's assignment order. -/
def verifiedEntryObj (body entryFs credFs : List (Str × J)) (now : Str)
    (payloadFs : List (Str × J)) : List (Str × J) :=
  pySet (pySet (pySet (pySet entryFs
    "status".data (verifiedStatus entryFs))
    "verifiedAt".data (J.str now))
    "projectId".data (verifyProjectId body entryFs credFs))
    "lastCheck".data (lastCheckObj payloadFs)

/-- `credential_store_verify`.  The external prime-status probe enters as
the already-decided outcome `probe`; on probe failure the handler re-raises
before any mutation.  A truthy non-dict stored entry (or a non-dict probe
payload) makes Python crash on `.get` — modelled as `Err.typeError`. -/
def credentialStoreVerify (c : CredClass) (store : Store) (entryId : Str)
    (body : List (Str × J)) (probe : Except Err J) (now : Str) :
    Except Err (Store × J) :=
  if jTruthy (pyGet store.entries entryId) = false then
    Except.error (Err.http 404 (J.str "Credential not found".data))
  else
    match pyGet store.entries entryId with
    | J.obj entryFs =>
      match pyGet entryFs "credential".data with
      | J.obj credFs =>
        match probe with
        | Except.error e => Except.error e
        | Except.ok statusPayload =>
          match statusPayload with
          | J.obj payloadFs =>
            Except.ok (⟨store.selectedId, pySet store.entries entryId
              (J.obj (verifiedEntryObj body entryFs credFs now payloadFs))⟩,
              J.obj [("entry".data,
                      J.obj (verifiedEntryObj body entryFs credFs now payloadFs)),
                     ("prime_status".data, statusPayload)])
          | _ => Except.error Err.typeError
      | _ =>
        Except.error (Err.http 400 (J.str "Stored credential is invalid.".data))
    | _ => Except.error Err.typeError

/-- The mutated entry fields of `credential_store_mark_primed`. -/
def primedEntryObj (entryFs body : List (Str × J)) (now : Str) :
    List (Str × J) :=
  if jTruthy (pyGet body "prime_result".data) then
    pySet (pySet (pySet entryFs "status".data (J.str "primed".data))
      "primedAt".data (J.str now))
      "lastPrimeResult".data (pyGet body "prime_result".data)
  else
    pySet (pySet entryFs "status".data (J.str "primed".data))
      "primedAt".data (J.str now)

/-- `credential_store_mark_primed`. -/
def credentialStoreMarkPrimed (c : CredClass) (store : Store)
    (entryId : Str) (body : List (Str × J)) (now : Str) :
    Except Err (Store × J) :=
  if jTruthy (pyGet store.entries entryId) = false then
    Except.error (Err.http 404 (J.str "Credential not found".data))
  else
    match pyGet store.entries entryId with
    | J.obj entryFs =>
      if ¬ (pyGet entryFs "status".data = J.str "verified".data ∨
          pyGet entryFs "status".data = J.str "primed".data) then
        Except.error (Err.http 400 (J.str "Verify the credential before marking it primed.".data))
      else
        Except.ok (⟨store.selectedId, pySet store.entries entryId
          (J.obj (primedEntryObj entryFs body now))⟩,
          J.obj [("entry".data, J.obj (primedEntryObj entryFs body now))])
    | _ => Except.error Err.typeError

/-- One HTTP-level operation against a store class: each handler loads
(which normalizes), mutates, and writes; a raised error leaves the persisted
state untouched. -/
inductive StoreOp where
  | add (body : List (Str × J)) (freshId : Str) (now : Str)
  | select (body : List (Str × J))
  | del (entryId : Str)
  | verify (entryId : Str) (body : List (Str × J)) (probe : Except Err J)
      (now : Str)
  | markPrimed (entryId : Str) (body : List (Str × J)) (now : Str)

def applyOp (c : CredClass) (persisted : Store) (op : StoreOp) : Store :=
  match op with
  | StoreOp.add body freshId now =>
    match credentialStoreAdd c (normalizeStorePayload c persisted) body
        freshId now with
    | Except.ok out => out.1
    | Except.error _ => persisted
  | StoreOp.select body =>
    match credentialStoreSelect c (normalizeStorePayload c persisted) body with
    | Except.ok s => s
    | Except.error _ => persisted
  | StoreOp.del entryId =>
    match credentialStoreDelete c (normalizeStorePayload c persisted)
        entryId with
    | Except.ok s => s
    | Except.error _ => persisted
  | StoreOp.verify entryId body probe now =>
    match credentialStoreVerify c (normalizeStorePayload c persisted) entryId
        body probe now with
    | Except.ok out => out.1
    | Except.error _ => persisted
  | StoreOp.markPrimed entryId body now =>
    match credentialStoreMarkPrimed c (normalizeStorePayload c persisted)
        entryId body now with
    | Except.ok out => out.1
    | Except.error _ => persisted

def runOps (c : CredClass) : List StoreOp → Store → Store
  | [], s => s
  | op :: rest, s => runOps c rest (applyOp c s op)

/-- The activation invariant: a non-null `selectedId` names an existing
entry whose status satisfies the class's activation predicate. -/
def storeInvariantB (c : CredClass) (s : Store) : Bool :=
  match s.selectedId with
  | J.null => true
  | J.str sid =>
    match lookupField s.entries sid with
    | some (J.obj fs) => entryActivationAllowed c fs
    | _ => false
  | _ => false

/-- The safety side condition of the amended C3: an `add` never reuses the
id of the currently selected entry. -/
def opSafe (c : CredClass) (s : Store) (op : StoreOp) : Bool :=
  match op with
  | StoreOp.add body freshId _ =>
    decide (freshId ≠ [] ∧ (normalizeStorePayload c s).selectedId ≠
      J.str (addResolvedId body freshId))
  | _ => true

def safeRun (c : CredClass) : Store → List StoreOp → Bool
  | _, [] => true
  | s, op :: rest => opSafe c s op && safeRun c (applyOp c s op) rest

/-! ### C3 proof machinery -/

theorem pyGet_of_lookup {env : List (Str × J)} {k : Str} {v : J}
    (h : lookupField env k = some v) : pyGet env k = v := by
  rw [pyGet_eq_lookupField, h]
  rfl

theorem lookup_of_pyGet {env : List (Str × J)} {k : Str} {v : J}
    (h : pyGet env k = v) (hv : v ≠ J.null) : lookupField env k = some v := by
  rw [pyGet_eq_lookupField] at h
  match hlk : lookupField env k with
  | none =>
    rw [hlk] at h
    exact absurd h.symm hv
  | some a =>
    rw [hlk] at h
    simp only [Option.getD_some] at h
    rw [h]

theorem lookupField_delField_ne (env : List (Str × J)) (key sid : Str)
    (h : sid ≠ key) : lookupField (delField env key) sid =
      lookupField env sid := by
  induction env with
  | nil => rfl
  | cons p rest ih =>
    rw [delField]
    split
    · rename_i he
      rw [lookupField, if_neg (fun hq => h (hq.symm.trans he))]
    · rw [lookupField, lookupField]
      split
      · rfl
      · exact ih

theorem lookupField_map_normalize (entries : List (Str × J)) (sid : Str) :
    lookupField (entries.map (fun kv => (kv.1, normalizeEntry kv.2))) sid =
      (lookupField entries sid).map normalizeEntry := by
  induction entries with
  | nil => rfl
  | cons p rest ih =>
    rw [List.map_cons, lookupField, lookupField]
    split
    · rfl
    · exact ih

/-- The status field written by `_normalize_entry`. -/
theorem normalizeEntry_status (fs : List (Str × J)) :
    ∃ fs', normalizeEntry (J.obj fs) = J.obj fs' ∧
      pyGet fs' "status".data =
        (match pyOr (pyGet fs "status".data) (J.str "unverified".data) with
         | J.str s =>
           if s ∈ validEntryStatuses then J.str s
           else J.str "unverified".data
         | _ => J.str "unverified".data) ∧ fs' ≠ [] := by
  refine ⟨_, rfl, ?_, by simp⟩
  simp [pyGet]

/-- `_normalize_entry` preserves a `"primed"`/`"verified"` status, hence the
activation predicate. -/
theorem normalizeEntry_allowed (c : CredClass) (fs : List (Str × J))
    (h : entryActivationAllowed c fs = true) :
    ∃ fs', normalizeEntry (J.obj fs) = J.obj fs' ∧
      entryActivationAllowed c fs' = true ∧ fs' ≠ [] := by
  obtain ⟨fs', heq, hst, hne⟩ := normalizeEntry_status fs
  refine ⟨fs', heq, ?_, hne⟩
  rw [entryActivationAllowed] at h ⊢
  by_cases hp : pyGet fs "status".data = J.str "primed".data
  · rw [hp] at hst
    have : pyGet fs' "status".data = J.str "primed".data := by
      rw [hst]
      rfl
    rw [this, if_pos rfl]
  · rw [if_neg hp] at h
    split at h
    · rename_i hv
      rw [hv.2] at hst
      have : pyGet fs' "status".data = J.str "verified".data := by
        rw [hst]
        rfl
      rw [this, if_neg (by simp), if_pos ⟨hv.1, rfl⟩]
    · cases h

/-- The invariant used in the C3 induction. -/
def StoreInv (c : CredClass) (s : Store) : Prop :=
  s.selectedId = J.null ∨
    ∃ sid fs, s.selectedId = J.str sid ∧
      lookupField s.entries sid = some (J.obj fs) ∧
      entryActivationAllowed c fs = true

/-- All entry ids are nonempty strings (true for every reachable store:
`uuid4().hex` and accepted request ids are nonempty). -/
def KeysOk (s : Store) : Prop := ∀ kv ∈ s.entries, kv.1 ≠ ([] : Str)

theorem normalize_keys (c : CredClass) (s : Store) (hk : KeysOk s) :
    KeysOk (normalizeStorePayload c s) := by
  intro kv hkv
  rw [normalizeStorePayload] at hkv
  simp only [List.mem_map] at hkv
  obtain ⟨kv0, hkv0, heq⟩ := hkv
  rw [← heq]
  exact hk kv0 hkv0

theorem normalize_inv (c : CredClass) (s : Store) (hs : StoreInv c s) :
    StoreInv c (normalizeStorePayload c s) := by
  rcases hs with hsel | ⟨sid, fs, hsel, hlk, hall⟩
  · left
    simp [normalizeStorePayload, hsel, jTruthy]
  · obtain ⟨fs', heq, hall', hne⟩ := normalizeEntry_allowed c fs hall
    have hlk' : lookupField
        (s.entries.map (fun kv => (kv.1, normalizeEntry kv.2))) sid =
        some (J.obj fs') := by
      rw [lookupField_map_normalize, hlk]
      show some (normalizeEntry (J.obj fs)) = some (J.obj fs')
      rw [heq]
    by_cases hsid : sid = ([] : Str)
    · right
      refine ⟨sid, fs', ?_, hlk', hall'⟩
      simp [normalizeStorePayload, hsel, hsid, jTruthy]
    · right
      refine ⟨sid, fs', ?_, hlk', hall'⟩
      simp [normalizeStorePayload, hsel, jTruthy, hsid, hlk', hall', hne]

theorem invariantB_of_inv {c : CredClass} {s : Store} (h : StoreInv c s) :
    storeInvariantB c s = true := by
  rcases h with h | ⟨sid, fs, hsel, hlk, hall⟩
  · rw [storeInvariantB, h]
  · simp [storeInvariantB, hsel, hlk, hall]

theorem mem_pySet {env : List (Str × J)} {k : Str} {v : J} {kv : Str × J}
    (h : kv ∈ pySet env k v) : kv.1 = k ∨ kv ∈ env := by
  induction env with
  | nil =>
    rw [pySet, List.mem_singleton] at h
    exact Or.inl (by rw [h])
  | cons p rest ih =>
    rw [pySet] at h
    split at h
    · rename_i he
      rcases List.mem_cons.mp h with rfl | hm
      · exact Or.inl he
      · exact Or.inr (List.mem_cons_of_mem _ hm)
    · rcases List.mem_cons.mp h with rfl | hm
      · exact Or.inr (List.mem_cons_self _ _)
      · rcases ih hm with h2 | h2
        · exact Or.inl h2
        · exact Or.inr (List.mem_cons_of_mem _ h2)

theorem mem_delField {env : List (Str × J)} {key : Str} {kv : Str × J}
    (h : kv ∈ delField env key) : kv ∈ env := by
  induction env with
  | nil => cases h
  | cons p rest ih =>
    rw [delField] at h
    split at h
    · exact List.mem_cons_of_mem _ h
    · rcases List.mem_cons.mp h with rfl | hm
      · exact List.mem_cons_self _ _
      · exact List.mem_cons_of_mem _ (ih hm)

theorem keysOk_pySet {s : Store} {k : Str} {v : J}
    (hk : KeysOk s) (hne : k ≠ []) :
    ∀ kv ∈ pySet s.entries k v, kv.1 ≠ ([] : Str) := by
  intro kv hkv
  rcases mem_pySet hkv with h | h
  · rw [h]
    exact hne
  · exact hk kv h

theorem lookup_some_mem {env : List (Str × J)} {k : Str} {v : J}
    (h : lookupField env k = some v) : (k, v) ∈ env := by
  induction env with
  | nil => cases h
  | cons p rest ih =>
    rw [lookupField] at h
    split at h
    · rename_i he
      cases Option.some_injective _ h
      rw [← he]
      exact List.mem_cons_self _ _
    · exact List.mem_cons_of_mem _ (ih h)

theorem addResolvedId_ne_nil {body : List (Str × J)} {freshId : Str}
    (h : freshId ≠ []) : addResolvedId body freshId ≠ [] := by
  rw [addResolvedId]
  match pyGet body "id".data with
  | J.str s =>
    by_cases hs : s = ([] : Str)
    · simp [hs, h]
    · simp [hs]
  | J.null => exact h
  | J.bool b => exact h
  | J.num n => exact h
  | J.arr a => exact h
  | J.obj o => exact h

theorem pyKeyMem_spec {x : J} {entries : List (Str × J)}
    (h : pyKeyMem x entries = true) :
    ∃ s, x = J.str s ∧ (∃ v, (s, v) ∈ entries) := by
  match x with
  | J.str s =>
    rw [pyKeyMem, List.any_eq_true] at h
    obtain ⟨kv, hkv, hbeq⟩ := h
    refine ⟨s, rfl, kv.2, ?_⟩
    have : kv.1 = s := by
      exact eq_of_beq hbeq
    rw [← this]
    exact hkv
  | J.null => cases h
  | J.bool b => cases h
  | J.num n => cases h
  | J.arr a => cases h
  | J.obj o => cases h

/-- `add` preserves the invariant when it does not reuse the selected id. -/
theorem add_inv (c : CredClass) (loaded : Store) (body : List (Str × J))
    (freshId : Str) (now : Str) (out : Store × Str)
    (hl : StoreInv c loaded) (hKeys : KeysOk loaded) (hfresh : freshId ≠ [])
    (hsafe : loaded.selectedId ≠ J.str (addResolvedId body freshId))
    (h : credentialStoreAdd c loaded body freshId now = Except.ok out) :
    StoreInv c out.1 ∧ KeysOk out.1 := by
  rw [credentialStoreAdd] at h
  split at h
  · rename_i credFs hcred
    injection h with h2
    subst h2
    constructor
    · by_cases hmem : pyKeyMem loaded.selectedId
          (pySet loaded.entries (addResolvedId body freshId)
            (addEntryObj body freshId now credFs)) = true
      · rcases hl with hsel | ⟨sid, fs, hsel, hlk, hall⟩
        · left
          simp [hsel, hmem]
        · right
          refine ⟨sid, fs, ?_, ?_, hall⟩
          · rw [hsel] at hmem
            simp [hsel, hmem]
          · simp only
            rw [lookupField_pySet_ne _ _ _ _ ?_]
            · exact hlk
            · intro he
              exact hsafe (by rw [hsel, he])
      · left
        simp [hmem]
    · intro kv hkv
      simp only at hkv
      rcases mem_pySet hkv with h2 | h2
      · rw [h2]
        exact addResolvedId_ne_nil hfresh
      · exact hKeys kv h2
  · cases h

/-- `select` establishes the invariant on success. -/
theorem select_inv (c : CredClass) (loaded : Store) (body : List (Str × J))
    (out : Store) (hKeys : KeysOk loaded)
    (h : credentialStoreSelect c loaded body = Except.ok out) :
    StoreInv c out ∧ KeysOk out := by
  rw [credentialStoreSelect] at h
  split at h
  · cases h
  · split at h
    · rename_i hguard htruthy
      split at h
      · rename_i sid heqsel
        split at h
        · rename_i entry hlk
          split at h
          · cases h
          · rename_i hent
            split at h
            · rename_i fs
              split at h
              · rename_i hall
                injection h with h2
                subst h2
                exact ⟨Or.inr ⟨sid, fs, heqsel, hlk, hall⟩, hKeys⟩
              · split at h
                · cases h
                · cases h
            · cases h
        · cases h
      · cases h
    · rename_i hguard htruthy
      injection h with h2
      subst h2
      refine ⟨?_, hKeys⟩
      left
      simp only
      by_cases hnull : pyGet body "selectedId".data = J.null
      · exact hnull
      · exfalso
        have hmem : pyKeyMem (pyGet body "selectedId".data)
            loaded.entries = true := by
          by_cases hm : pyKeyMem (pyGet body "selectedId".data)
              loaded.entries = true
          · exact hm
          · exact absurd ⟨hnull, by simpa using hm⟩ hguard
        obtain ⟨s, hx, v, hv⟩ := pyKeyMem_spec hmem
        have hs : s = ([] : Str) := by
          rw [hx] at htruthy
          simpa [jTruthy] using htruthy
        exact hKeys (s, v) hv hs

/-- `delete` preserves the invariant. -/
theorem delete_inv (c : CredClass) (loaded : Store) (entryId : Str)
    (out : Store) (hl : StoreInv c loaded) (hKeys : KeysOk loaded)
    (h : credentialStoreDelete c loaded entryId = Except.ok out) :
    StoreInv c out ∧ KeysOk out := by
  rw [credentialStoreDelete] at h
  split at h
  · cases h
  · injection h with h2
    subst h2
    constructor
    · by_cases hsel : loaded.selectedId = J.str entryId
      · left
        simp [hsel]
      · rcases hl with h0 | ⟨sid, fs, hs, hlk, hall⟩
        · left
          simp [h0]
        · right
          refine ⟨sid, fs, ?_, ?_, hall⟩
          · simp only
            rw [if_neg hsel]
            exact hs
          · simp only
            rw [lookupField_delField_ne _ _ _ (fun hq => hsel (by rw [hs, hq]))]
            exact hlk
    · intro kv hkv
      exact hKeys kv (mem_delField hkv)

theorem pyGet_pySet_self (env : List (Str × J)) (k : Str) (v : J) :
    pyGet (pySet env k v) k = v := by
  rw [pyGet_eq_lookupField, lookupField_pySet_self]
  rfl

/-- The status of the entry written by `verify`. -/
theorem verifiedEntryObj_status (body entryFs credFs : List (Str × J))
    (now : Str) (payloadFs : List (Str × J)) :
    pyGet (verifiedEntryObj body entryFs credFs now payloadFs)
      "status".data = verifiedStatus entryFs := by
  rw [verifiedEntryObj]
  rw [pyGet_pySet_ne _ _ _ _ (by decide)]
  rw [pyGet_pySet_ne _ _ _ _ (by decide)]
  rw [pyGet_pySet_ne _ _ _ _ (by decide)]
  exact pyGet_pySet_self _ _ _

/-- The status of the entry written by `markPrimed`. -/
theorem primedEntryObj_status (entryFs body : List (Str × J)) (now : Str) :
    pyGet (primedEntryObj entryFs body now) "status".data =
      J.str "primed".data := by
  rw [primedEntryObj]
  split
  · rw [pyGet_pySet_ne _ _ _ _ (by decide),
      pyGet_pySet_ne _ _ _ _ (by decide)]
    exact pyGet_pySet_self _ _ _
  · rw [pyGet_pySet_ne _ _ _ _ (by decide)]
    exact pyGet_pySet_self _ _ _

/-- `verify` preserves the invariant: in particular it never demotes the
selected entry below its class's activation predicate. -/
theorem verify_inv (c : CredClass) (loaded : Store) (entryId : Str)
    (body : List (Str × J)) (probe : Except Err J) (now : Str)
    (out : Store × J) (hl : StoreInv c loaded) (hKeys : KeysOk loaded)
    (h : credentialStoreVerify c loaded entryId body probe now =
      Except.ok out) : StoreInv c out.1 ∧ KeysOk out.1 := by
  rw [credentialStoreVerify] at h
  split at h
  · cases h
  · rename_i htruthy
    split at h
    · rename_i entryFs hent
      split at h
      · rename_i credFs hcred
        split at h
        · cases h
        · split at h
          · rename_i payloadFs
            injection h with h2
            subst h2
            have hkeyne : entryId ≠ ([] : Str) := by
              have hm := lookup_of_pyGet hent (by simp)
              exact hKeys _ (lookup_some_mem hm)
            constructor
            · rcases hl with hsel | ⟨sid, fs, hsel, hlk, hall⟩
              · left
                exact hsel
              · right
                by_cases hid : sid = entryId
                · subst hid
                  have hfs : fs = entryFs := by
                    have := pyGet_of_lookup hlk
                    rw [this] at hent
                    cases hent
                    rfl
                  subst hfs
                  refine ⟨sid, verifiedEntryObj body fs credFs now payloadFs,
                    hsel, ?_, ?_⟩
                  · simp only
                    exact lookupField_pySet_self _ _ _
                  · rw [entryActivationAllowed] at hall ⊢
                    rw [verifiedEntryObj_status, verifiedStatus]
                    by_cases hp :
                        pyGet fs "status".data = J.str "primed".data
                    · simp [hp]
                    · rw [if_neg hp] at hall
                      split at hall
                      · rename_i hv
                        simp [hp, hv.1]
                      · cases hall
                · refine ⟨sid, fs, hsel, ?_, hall⟩
                  simp only
                  rw [lookupField_pySet_ne _ _ _ _ (fun hq => hid hq.symm)]
                  exact hlk
            · intro kv hkv
              simp only at hkv
              rcases mem_pySet hkv with h2 | h2
              · rw [h2]
                exact hkeyne
              · exact hKeys kv h2
          · cases h
      · cases h
    · cases h

/-- `markPrimed` preserves the invariant. -/
theorem markPrimed_inv (c : CredClass) (loaded : Store) (entryId : Str)
    (body : List (Str × J)) (now : Str) (out : Store × J)
    (hl : StoreInv c loaded) (hKeys : KeysOk loaded)
    (h : credentialStoreMarkPrimed c loaded entryId body now =
      Except.ok out) : StoreInv c out.1 ∧ KeysOk out.1 := by
  rw [credentialStoreMarkPrimed] at h
  split at h
  · cases h
  · rename_i htruthy
    split at h
    · rename_i entryFs hent
      split at h
      · cases h
      · injection h with h2
        subst h2
        have hkeyne : entryId ≠ ([] : Str) := by
          have hm := lookup_of_pyGet hent (by simp)
          exact hKeys _ (lookup_some_mem hm)
        constructor
        · rcases hl with hsel | ⟨sid, fs, hsel, hlk, hall⟩
          · left
            exact hsel
          · right
            by_cases hid : sid = entryId
            · subst hid
              refine ⟨sid, primedEntryObj entryFs body now, hsel, ?_, ?_⟩
              · simp only
                exact lookupField_pySet_self _ _ _
              · rw [entryActivationAllowed, primedEntryObj_status,
                  if_pos rfl]
            · refine ⟨sid, fs, hsel, ?_, hall⟩
              simp only
              rw [lookupField_pySet_ne _ _ _ _ (fun hq => hid hq.symm)]
              exact hlk
        · intro kv hkv
          simp only at hkv
          rcases mem_pySet hkv with h2 | h2
          · rw [h2]
            exact hkeyne
          · exact hKeys kv h2
    · cases h

/-- A single safe operation preserves the invariant. -/
theorem applyOp_inv (c : CredClass) (s : Store) (op : StoreOp)
    (hs : StoreInv c s) (hk : KeysOk s) (hsafe : opSafe c s op = true) :
    StoreInv c (applyOp c s op) ∧ KeysOk (applyOp c s op) := by
  have hl := normalize_inv c s hs
  have hk2 := normalize_keys c s hk
  match op with
  | StoreOp.add body freshId now =>
    rw [opSafe] at hsafe
    have hsafe2 := of_decide_eq_true hsafe
    cases hres : credentialStoreAdd c (normalizeStorePayload c s) body
        freshId now with
    | ok out =>
      have := add_inv c _ body freshId now out hl hk2 hsafe2.1 hsafe2.2 hres
      simpa [applyOp, hres] using this
    | error e =>
      simp only [applyOp, hres]
      exact ⟨hs, hk⟩
  | StoreOp.select body =>
    cases hres : credentialStoreSelect c (normalizeStorePayload c s)
        body with
    | ok out =>
      have := select_inv c _ body out hk2 hres
      simpa [applyOp, hres] using this
    | error e =>
      simp only [applyOp, hres]
      exact ⟨hs, hk⟩
  | StoreOp.del entryId =>
    cases hres : credentialStoreDelete c (normalizeStorePayload c s)
        entryId with
    | ok out =>
      have := delete_inv c _ entryId out hl hk2 hres
      simpa [applyOp, hres] using this
    | error e =>
      simp only [applyOp, hres]
      exact ⟨hs, hk⟩
  | StoreOp.verify entryId body probe now =>
    cases hres : credentialStoreVerify c (normalizeStorePayload c s) entryId
        body probe now with
    | ok out =>
      have := verify_inv c _ entryId body probe now out hl hk2 hres
      simpa [applyOp, hres] using this
    | error e =>
      simp only [applyOp, hres]
      exact ⟨hs, hk⟩
  | StoreOp.markPrimed entryId body now =>
    cases hres : credentialStoreMarkPrimed c (normalizeStorePayload c s)
        entryId body now with
    | ok out =>
      have := markPrimed_inv c _ entryId body now out hl hk2 hres
      simpa [applyOp, hres] using this
    | error e =>
      simp only [applyOp, hres]
      exact ⟨hs, hk⟩

theorem runOps_inv (c : CredClass) (ops : List StoreOp) :
    ∀ s, StoreInv c s → KeysOk s → safeRun c s ops = true →
      StoreInv c (runOps c ops s) ∧ KeysOk (runOps c ops s) := by
  induction ops with
  | nil => exact fun s hs hk _ => ⟨hs, hk⟩
  | cons op rest ih =>
    intro s hs hk hsafe
    rw [safeRun, Bool.and_eq_true] at hsafe
    obtain ⟨h1, h2⟩ := applyOp_inv c s op hs hk hsafe.1
    rw [runOps]
    exact ih (applyOp c s op) h1 h2 hsafe.2

/-! ### Claim C3: the activation invariant -/

/-- The operation sequence refuting the claim as stated: add `"a"`, verify
it (probe succeeds), select it, then add with the same id `"a"` again.  The
final `add` overwrites the selected entry with a fresh `unverified` one but
keeps the selection, because `selectedId` is retained whenever it is still a
key of `entries`. -/
def C3ops : List StoreOp :=
  [ StoreOp.add (mkObj [("credential", J.obj []), ("id", J.str "a".data)])
      "f1".data "t1".data,
    StoreOp.verify "a".data []
      (Except.ok (J.obj [("status".data, J.str "ok".data)])) "t2".data,
    StoreOp.select (mkObj [("selectedId", J.str "a".data)]),
    StoreOp.add (mkObj [("credential", J.obj []), ("id", J.str "a".data)])
      "f2".data "t3".data ]

/-- C3 (counterexample): after the sequence `C3ops` on a source store,
`selectedId` is `"a"` but the entry `"a"` has status `"unverified"`, which
fails the activation predicate — the invariant does not survive an `add`
that reuses the selected entry's id. -/
theorem C3_counterexample :
    (runOps CredClass.source C3ops emptyStore).selectedId = J.str "a".data ∧
    storeInvariantB CredClass.source
      (runOps CredClass.source C3ops emptyStore) = false := by
  exact ⟨rfl, rfl⟩

/-- C3 (amended): activation invariant.  Starting from the empty store, after
any sequence of add/verify/markPrimed/delete/select operations in which no
`add` call reuses the id of the currently selected entry (and fresh ids are
nonempty, as `uuid4().hex` always is), a non-null `selectedId` names an
existing entry whose status satisfies the class's activation predicate
(source: verified or primed; target: primed only). -/
theorem C3_activation_invariant (c : CredClass) (ops : List StoreOp)
    (h : safeRun c emptyStore ops = true) :
    storeInvariantB c (runOps c ops emptyStore) = true :=
  invariantB_of_inv
    (runOps_inv c ops emptyStore (Or.inl rfl) (fun _ hkv => absurd hkv
      (List.not_mem_nil _)) h).1

def C3wops : List StoreOp :=
  [ StoreOp.add (mkObj [("credential", J.obj []), ("id", J.str "a".data)])
      "f1".data "t1".data,
    StoreOp.verify "a".data []
      (Except.ok (J.obj [("status".data, J.str "ok".data)])) "t2".data,
    StoreOp.select (mkObj [("selectedId", J.str "a".data)]),
    StoreOp.markPrimed "a".data [] "t3".data ]

theorem C3_activation_invariant_witness :
    storeInvariantB CredClass.source
      (runOps CredClass.source C3wops emptyStore) = true :=
  C3_activation_invariant CredClass.source C3wops (by decide)

/-! ### Claim C7: verify's error classification -/

def jIsObj : J → Bool
  | J.obj _ => true
  | _ => false

/-- C7 (counterexample): with a stored entry whose credential is the string
`"x"` (not an object), verify fails with status 400 ("Stored credential is
invalid."), not with the 404 NotFound error the claim asserts. -/
def C7store : Store :=
  ⟨J.null, [("a".data, J.obj [("credential".data, J.str "x".data)])]⟩

theorem C7_counterexample :
    credentialStoreVerify CredClass.source C7store "a".data []
        (Except.ok (J.obj [])) "t".data =
      Except.error (Err.http 400 (J.str "Stored credential is invalid.".data)) ∧
    errStatus (credentialStoreVerify CredClass.source C7store "a".data []
        (Except.ok (J.obj [])) "t".data) ≠ some 404 := by
  exact ⟨rfl, by decide⟩

/-- C7 (amended): verify's error classification.  Verify fails 404 NotFound
when the entry is absent (or falsy); it fails 400 (Validation, "Stored
credential is invalid.") — not NotFound — when the stored credential is not
an object; otherwise it proceeds to the prime-status probe, whose failure
propagates. -/
theorem C7_verify_error_classification (c : CredClass) (store : Store)
    (id : Str) (body : List (Str × J)) (probe : Except Err J) (now : Str) :
    (jTruthy (pyGet store.entries id) = false →
      credentialStoreVerify c store id body probe now =
        Except.error (Err.http 404 (J.str "Credential not found".data))) ∧
    (∀ entryFs, pyGet store.entries id = J.obj entryFs →
      jTruthy (J.obj entryFs) = true →
      jIsObj (pyGet entryFs "credential".data) = false →
      credentialStoreVerify c store id body probe now =
        Except.error (Err.http 400
          (J.str "Stored credential is invalid.".data))) ∧
    (∀ entryFs credFs e, pyGet store.entries id = J.obj entryFs →
      jTruthy (J.obj entryFs) = true →
      pyGet entryFs "credential".data = J.obj credFs →
      probe = Except.error e →
      credentialStoreVerify c store id body probe now = Except.error e) := by
  refine ⟨?_, ?_, ?_⟩
  · intro hfalse
    rw [credentialStoreVerify, if_pos hfalse]
  · intro entryFs hent htruthy hnotobj
    have hcond : ¬ (jTruthy (pyGet store.entries id) = false) := by
      rw [hent, htruthy]
      simp
    rw [credentialStoreVerify, if_neg hcond]
    cases hget : pyGet entryFs "credential".data with
    | obj credFs =>
      rw [hget] at hnotobj
      cases hnotobj
    | null => simp only [hent, hget]
    | bool b => simp only [hent, hget]
    | num n => simp only [hent, hget]
    | str s => simp only [hent, hget]
    | arr a => simp only [hent, hget]
  · intro entryFs credFs e hent htruthy hcred hprobe
    have hcond : ¬ (jTruthy (pyGet store.entries id) = false) := by
      rw [hent, htruthy]
      simp
    rw [credentialStoreVerify, if_neg hcond]
    simp only [hent, hcred, hprobe]

def C7wstore : Store :=
  ⟨J.null,
   [ ("a".data, J.obj [("credential".data, J.obj [])]),
     ("b".data, J.obj [("credential".data, J.num 5)]) ]⟩

theorem C7_verify_error_classification_witness :
    credentialStoreVerify CredClass.source C7wstore "zzz".data []
        (Except.ok (J.obj [])) "t".data =
      Except.error (Err.http 404 (J.str "Credential not found".data)) ∧
    credentialStoreVerify CredClass.source C7wstore "b".data []
        (Except.ok (J.obj [])) "t".data =
      Except.error (Err.http 400
        (J.str "Stored credential is invalid.".data)) ∧
    credentialStoreVerify CredClass.source C7wstore "a".data []
        (Except.error (Err.http 502 J.null)) "t".data =
      Except.error (Err.http 502 J.null) := by
  refine ⟨?_, ?_, ?_⟩
  · exact (C7_verify_error_classification CredClass.source C7wstore
      "zzz".data [] (Except.ok (J.obj [])) "t".data).1 (by decide)
  · exact (C7_verify_error_classification CredClass.source C7wstore
      "b".data [] (Except.ok (J.obj [])) "t".data).2.1
      [("credential".data, J.num 5)] (by decide) (by decide) (by decide)
  · exact (C7_verify_error_classification CredClass.source C7wstore
      "a".data [] (Except.error (Err.http 502 J.null)) "t".data).2.2
      [("credential".data, J.obj [])] [] (Err.http 502 J.null)
      (by decide) (by decide) (by decide) rfl

/-! ### Claim C8: verify's monotonic status -/

/-- The status of the entry stored under `id`. -/
def entryStatus (s : Store) (id : Str) : J :=
  match pyGet s.entries id with
  | J.obj fs => pyGet fs "status".data
  | _ => J.null

/-- C8: monotonic status.  A successful verify leaves a `"primed"` entry
`"primed"` and sets every other status to `"verified"` — it never demotes
`"primed"` to `"verified"`. -/
theorem C8_verify_monotonic_status (c : CredClass) (store : Store)
    (id : Str) (body : List (Str × J)) (probe : Except Err J) (now : Str)
    (out : Store × J)
    (h : credentialStoreVerify c store id body probe now = Except.ok out) :
    entryStatus out.1 id =
      (if entryStatus store id = J.str "primed".data then J.str "primed".data
       else J.str "verified".data) := by
  rw [credentialStoreVerify] at h
  split at h
  · cases h
  · rename_i htruthy
    split at h
    · rename_i entryFs hent
      split at h
      · rename_i credFs hcred
        split at h
        · cases h
        · split at h
          · rename_i payloadFs
            injection h with h2
            subst h2
            simp only [entryStatus, pyGet_pySet_self, hent]
            rw [verifiedEntryObj_status, verifiedStatus]
          · cases h
      · cases h
    · cases h

def C8wstore : Store :=
  ⟨J.null,
   [("a".data, J.obj [("credential".data, J.obj []),
                      ("status".data, J.str "primed".data)])]⟩

theorem C8_verify_monotonic_status_witness :
    entryStatus ((credentialStoreVerify CredClass.target C8wstore "a".data
        [] (Except.ok (J.obj [])) "t".data).toOption.getD
        (⟨J.null, []⟩, J.null)).1 "a".data =
      (if entryStatus C8wstore "a".data = J.str "primed".data then
        J.str "primed".data
       else J.str "verified".data) :=
  C8_verify_monotonic_status CredClass.target C8wstore "a".data
    [] (Except.ok (J.obj [])) "t".data
    ((credentialStoreVerify CredClass.target C8wstore "a".data []
        (Except.ok (J.obj [])) "t".data).toOption.getD
      (⟨J.null, []⟩, J.null))
    (by rfl)

/-! ### Claim C9: resolver idempotence -/

theorem pyGet_maybeSet_ne (env : List (Str × J)) (k k2 : Str) (v : J)
    (hne : k ≠ k2) (hex : k2 ≠ "extra_env".data) :
    pyGet (maybeSetEnvOrExtra env k v) k2 = pyGet env k2 := by
  rw [pyGet_eq_lookupField, pyGet_eq_lookupField,
    lookupField_maybeSet_ne env k k2 v hne hex]

theorem pyGet_condMaybeSet_ne (env : List (Str × J)) (c : Bool) (k k2 : Str)
    (v : J) (hne : k ≠ k2) (hex : k2 ≠ "extra_env".data) :
    pyGet (condMaybeSet env c k v) k2 = pyGet env k2 := by
  cases c
  · rfl
  · exact pyGet_maybeSet_ne env k k2 v hne hex

theorem lookupField_condMaybeSet_ne (env : List (Str × J)) (c : Bool)
    (k k2 : Str) (v : J) (hne : k ≠ k2) (hex : k2 ≠ "extra_env".data) :
    lookupField (condMaybeSet env c k v) k2 = lookupField env k2 := by
  cases c
  · rfl
  · exact lookupField_maybeSet_ne env k k2 v hne hex

theorem pyGet_applyPostgres_ne (env : List (Str × J))
    (cn dn du dp cp : J) (k2 : Str)
    (h1 : k2 ≠ "POSTGRES_HOST".data) (h2 : k2 ≠ "POSTGRES_DB".data)
    (h3 : k2 ≠ "POSTGRES_USER".data) (h4 : k2 ≠ "POSTGRES_PASSWORD".data)
    (h5 : k2 ≠ "POSTGRES_PORT".data) (hex : k2 ≠ "extra_env".data) :
    pyGet (applyPostgresEnv env cn dn du dp cp) k2 = pyGet env k2 := by
  rw [applyPostgresEnv,
    pyGet_maybeSet_ne _ _ _ _ (fun he => h5 he.symm) hex,
    pyGet_condMaybeSet_ne _ _ _ _ _ (fun he => h4 he.symm) hex,
    pyGet_condMaybeSet_ne _ _ _ _ _ (fun he => h3 he.symm) hex,
    pyGet_maybeSet_ne _ _ _ _ (fun he => h2 he.symm) hex,
    pyGet_maybeSet_ne _ _ _ _ (fun he => h1 he.symm) hex]

theorem lookupField_applyPostgres_ne (env : List (Str × J))
    (cn dn du dp cp : J) (k2 : Str)
    (h1 : k2 ≠ "POSTGRES_HOST".data) (h2 : k2 ≠ "POSTGRES_DB".data)
    (h3 : k2 ≠ "POSTGRES_USER".data) (h4 : k2 ≠ "POSTGRES_PASSWORD".data)
    (h5 : k2 ≠ "POSTGRES_PORT".data) (hex : k2 ≠ "extra_env".data) :
    lookupField (applyPostgresEnv env cn dn du dp cp) k2 =
      lookupField env k2 := by
  rw [applyPostgresEnv,
    lookupField_maybeSet_ne _ _ _ _ (fun he => h5 he.symm) hex,
    lookupField_condMaybeSet_ne _ _ _ _ _ (fun he => h4 he.symm) hex,
    lookupField_condMaybeSet_ne _ _ _ _ _ (fun he => h3 he.symm) hex,
    lookupField_maybeSet_ne _ _ _ _ (fun he => h2 he.symm) hex,
    lookupField_maybeSet_ne _ _ _ _ (fun he => h1 he.symm) hex]

/-- Every key the `connectDatabase` wiring may touch. -/
def dbWrittenKeys : List Str :=
  [ "database_instance".data, "database_name".data, "db_username".data,
    "db_password".data, "DATABASE_URL".data, "DB_HOST".data,
    "DB_CONNECTION".data, "POSTGRES_HOST".data, "POSTGRES_DB".data,
    "POSTGRES_USER".data, "POSTGRES_PASSWORD".data, "POSTGRES_PORT".data,
    "extra_env".data ]

theorem pyGet_dbWired_ne (meta : List (Str × J))
    (ce : Option (List (Str × J))) (env : List (Str × J)) (k2 : Str)
    (h : k2 ∉ dbWrittenKeys) :
    pyGet (dbWiredEnv meta ce env) k2 = pyGet env k2 := by
  simp only [dbWrittenKeys, List.mem_cons, List.not_mem_nil, or_false,
    not_or] at h
  obtain ⟨hdi, hdn, hdu, hdp, hurl, hdh, hdc, hph, hpd, hpu, hpp, hpt,
    hex⟩ := h
  rw [dbWiredEnv,
    pyGet_applyPostgres_ne _ _ _ _ _ _ _ hph hpd hpu hpp hpt hex,
    pyGet_maybeSet_ne _ _ _ _ (fun he => hdc he.symm) hex,
    pyGet_maybeSet_ne _ _ _ _ (fun he => hdh he.symm) hex,
    pyGet_maybeSet_ne _ _ _ _ (fun he => hurl he.symm) hex,
    pyGet_pySet_ne _ _ _ _ (fun he => hdp he.symm),
    pyGet_pySet_ne _ _ _ _ (fun he => hdu he.symm),
    pyGet_pySet_ne _ _ _ _ (fun he => hdn he.symm),
    pyGet_pySet_ne _ _ _ _ (fun he => hdi he.symm)]

theorem lookupField_dbWired_di (meta : List (Str × J))
    (ce : Option (List (Str × J))) (env : List (Str × J)) :
    lookupField (dbWiredEnv meta ce env) "database_instance".data =
      some (pyGet meta "database_instance".data) := by
  rw [dbWiredEnv,
    lookupField_applyPostgres_ne _ _ _ _ _ _ _ (by decide) (by decide)
      (by decide) (by decide) (by decide) (by decide),
    lookupField_maybeSet_ne _ _ _ _ (by decide) (by decide),
    lookupField_maybeSet_ne _ _ _ _ (by decide) (by decide),
    lookupField_maybeSet_ne _ _ _ _ (by decide) (by decide),
    lookupField_pySet_ne _ _ _ _ (by decide),
    lookupField_pySet_ne _ _ _ _ (by decide),
    lookupField_pySet_ne _ _ _ _ (by decide),
    lookupField_pySet_self]

theorem lookupField_dbWired_dn (meta : List (Str × J))
    (ce : Option (List (Str × J))) (env : List (Str × J)) :
    lookupField (dbWiredEnv meta ce env) "database_name".data =
      some (pyGet meta "database_name".data) := by
  rw [dbWiredEnv,
    lookupField_applyPostgres_ne _ _ _ _ _ _ _ (by decide) (by decide)
      (by decide) (by decide) (by decide) (by decide),
    lookupField_maybeSet_ne _ _ _ _ (by decide) (by decide),
    lookupField_maybeSet_ne _ _ _ _ (by decide) (by decide),
    lookupField_maybeSet_ne _ _ _ _ (by decide) (by decide),
    lookupField_pySet_ne _ _ _ _ (by decide),
    lookupField_pySet_ne _ _ _ _ (by decide),
    lookupField_pySet_self]

theorem lookupField_dbWired_du (meta : List (Str × J))
    (ce : Option (List (Str × J))) (env : List (Str × J)) :
    lookupField (dbWiredEnv meta ce env) "db_username".data =
      some (resolvedDbUsername meta ce) := by
  rw [dbWiredEnv,
    lookupField_applyPostgres_ne _ _ _ _ _ _ _ (by decide) (by decide)
      (by decide) (by decide) (by decide) (by decide),
    lookupField_maybeSet_ne _ _ _ _ (by decide) (by decide),
    lookupField_maybeSet_ne _ _ _ _ (by decide) (by decide),
    lookupField_maybeSet_ne _ _ _ _ (by decide) (by decide),
    lookupField_pySet_ne _ _ _ _ (by decide),
    lookupField_pySet_self]

theorem lookupField_dbWired_dp (meta : List (Str × J))
    (ce : Option (List (Str × J))) (env : List (Str × J)) :
    lookupField (dbWiredEnv meta ce env) "db_password".data =
      some (resolvedDbPassword meta ce) := by
  rw [dbWiredEnv,
    lookupField_applyPostgres_ne _ _ _ _ _ _ _ (by decide) (by decide)
      (by decide) (by decide) (by decide) (by decide),
    lookupField_maybeSet_ne _ _ _ _ (by decide) (by decide),
    lookupField_maybeSet_ne _ _ _ _ (by decide) (by decide),
    lookupField_maybeSet_ne _ _ _ _ (by decide) (by decide),
    lookupField_pySet_self]

theorem lookupField_wireMaxTokens_ne (ce : Option (List (Str × J)))
    (env : List (Str × J)) (k : Str) (hex : k ≠ "extra_env".data) :
    lookupField (wireMaxTokens ce env) k = lookupField env k := by
  rw [wireMaxTokens]
  split
  · exact lookupField_setExtraEnv_ne env _ k _ hex
  · rfl

theorem pyGet_wireMaxTokens_ne (ce : Option (List (Str × J)))
    (env : List (Str × J)) (k : Str) (hex : k ≠ "extra_env".data) :
    pyGet (wireMaxTokens ce env) k = pyGet env k := by
  rw [pyGet_eq_lookupField, pyGet_eq_lookupField,
    lookupField_wireMaxTokens_ne ce env k hex]

theorem wireMaxTokens_noop (ce : Option (List (Str × J)))
    (env : List (Str × J))
    (h : placeholderValue (pyOr (getExtraEnv env "DEFAULT_MAX_TOKENS".data)
      (pyGet env "DEFAULT_MAX_TOKENS".data)) = false) :
    wireMaxTokens ce env = env := by
  simp [wireMaxTokens, h]

/-- The environment keys the database wiring writes through
`_maybe_set_env_or_extra`. -/
def wiredDbKeys : List Str :=
  [ "DATABASE_URL".data, "DB_HOST".data, "DB_CONNECTION".data,
    "POSTGRES_HOST".data, "POSTGRES_DB".data, "POSTGRES_USER".data,
    "POSTGRES_PASSWORD".data, "POSTGRES_PORT".data ]

/-- A wired key is settled in `env`: the top level does not hold a present
placeholder, and `extra_env` holds a genuine (present, non-placeholder)
value. -/
def goodWiredKey (env : List (Str × J)) (k : Str) : Bool :=
  (decide (pyGet env k = J.null) || !placeholderValue (pyGet env k)) &&
  (decide (getExtraEnv env k ≠ J.null) &&
    !placeholderValue (getExtraEnv env k))

theorem maybeSet_noop_of_good (env : List (Str × J)) (k : Str) (v : J)
    (hg : goodWiredKey env k = true) :
    maybeSetEnvOrExtra env k v = env := by
  rw [goodWiredKey] at hg
  simp only [Bool.and_eq_true, Bool.or_eq_true, Bool.not_eq_true',
    decide_eq_true_eq] at hg
  obtain ⟨h1, h2, h3⟩ := hg
  refine maybeSet_noop env k v ?_ ⟨h2, h3⟩
  rcases h1 with h1 | h1
  · exact fun hc => hc.1 h1
  · exact fun hc => Bool.false_ne_true (h1 ▸ hc.2)

theorem condMaybeSet_noop_of_good (env : List (Str × J)) (c : Bool)
    (k : Str) (v : J) (hg : goodWiredKey env k = true) :
    condMaybeSet env c k v = env := by
  cases c
  · rfl
  · exact maybeSet_noop_of_good env k v hg

/-- On an environment whose direct database fields already hold the wired
values and whose wired keys are settled, the whole `connectDatabase` wiring
is the identity. -/
theorem dbWired_idem (meta : List (Str × J))
    (ce : Option (List (Str × J))) (env : List (Str × J))
    (hdi : lookupField env "database_instance".data =
      some (pyGet meta "database_instance".data))
    (hdn : lookupField env "database_name".data =
      some (pyGet meta "database_name".data))
    (hdu : lookupField env "db_username".data =
      some (resolvedDbUsername meta ce))
    (hdp : lookupField env "db_password".data =
      some (resolvedDbPassword meta ce))
    (hgood : ∀ k, k ∈ wiredDbKeys → goodWiredKey env k = true) :
    dbWiredEnv meta ce env = env := by
  rw [dbWiredEnv, pySet_self _ _ _ hdi, pySet_self _ _ _ hdn,
    pySet_self _ _ _ hdu, pySet_self _ _ _ hdp,
    maybeSet_noop_of_good env "DATABASE_URL".data _
      (hgood "DATABASE_URL".data (by decide)),
    maybeSet_noop_of_good env "DB_HOST".data _
      (hgood "DB_HOST".data (by decide)),
    maybeSet_noop_of_good env "DB_CONNECTION".data _
      (hgood "DB_CONNECTION".data (by decide)),
    applyPostgresEnv,
    maybeSet_noop_of_good env "POSTGRES_HOST".data _
      (hgood "POSTGRES_HOST".data (by decide)),
    maybeSet_noop_of_good env "POSTGRES_DB".data _
      (hgood "POSTGRES_DB".data (by decide)),
    condMaybeSet_noop_of_good env _ "POSTGRES_USER".data _
      (hgood "POSTGRES_USER".data (by decide)),
    condMaybeSet_noop_of_good env _ "POSTGRES_PASSWORD".data _
      (hgood "POSTGRES_PASSWORD".data (by decide)),
    maybeSet_noop_of_good env "POSTGRES_PORT".data _
      (hgood "POSTGRES_PORT".data (by decide))]

/-- A finalized agent environment is settled: its resolver-visible
`DEFAULT_MAX_TOKENS` is no placeholder, and when `connectDatabase` is
truthy every wired database key is settled. -/
def goodEnvB (env : List (Str × J)) : Bool :=
  !placeholderValue (pyOr (getExtraEnv env "DEFAULT_MAX_TOKENS".data)
      (pyGet env "DEFAULT_MAX_TOKENS".data)) &&
  (!jTruthy (pyGet env "connectDatabase".data) ||
    wiredDbKeys.all (goodWiredKey env))

/-- A successful per-agent wiring run whose output environment is settled
has that output as a fixed point. -/
theorem wireAgentEnv_idem (meta : List (Str × J))
    (ce : Option (List (Str × J))) (env env1 : List (Str × J))
    (h : wireAgentEnv meta ce env = Except.ok env1)
    (hg : goodEnvB env1 = true) :
    wireAgentEnv meta ce env1 = Except.ok env1 := by
  rw [goodEnvB] at hg
  simp only [Bool.and_eq_true, Bool.or_eq_true, Bool.not_eq_true',
    List.all_eq_true] at hg
  obtain ⟨hmax, hrest⟩ := hg
  rw [wireAgentEnv] at h
  split at h
  · rename_i env2 hdb
    injection h with h2
    rw [wireDbPart] at hdb
    split at hdb
    · rename_i hcd1
      split at hdb
      · cases hdb
      · split at hdb
        · cases hdb
        · rename_i hguard1 hguard2
          injection hdb with h3
          have hcd2 : pyGet env1 "connectDatabase".data =
              pyGet env "connectDatabase".data := by
            rw [← h2, pyGet_wireMaxTokens_ne ce env2 "connectDatabase".data
              (by decide), ← h3,
              pyGet_dbWired_ne meta ce env "connectDatabase".data (by decide)]
          have hgood : ∀ k, k ∈ wiredDbKeys →
              goodWiredKey env1 k = true := by
            rcases hrest with hfalse | hall
            · rw [hcd2, hcd1] at hfalse
              cases hfalse
            · exact hall
          have hdi : lookupField env1 "database_instance".data =
              some (pyGet meta "database_instance".data) := by
            rw [← h2, lookupField_wireMaxTokens_ne ce env2
              "database_instance".data (by decide), ← h3,
              lookupField_dbWired_di]
          have hdn : lookupField env1 "database_name".data =
              some (pyGet meta "database_name".data) := by
            rw [← h2, lookupField_wireMaxTokens_ne ce env2
              "database_name".data (by decide), ← h3,
              lookupField_dbWired_dn]
          have hdu : lookupField env1 "db_username".data =
              some (resolvedDbUsername meta ce) := by
            rw [← h2, lookupField_wireMaxTokens_ne ce env2
              "db_username".data (by decide), ← h3,
              lookupField_dbWired_du]
          have hdp : lookupField env1 "db_password".data =
              some (resolvedDbPassword meta ce) := by
            rw [← h2, lookupField_wireMaxTokens_ne ce env2
              "db_password".data (by decide), ← h3,
              lookupField_dbWired_dp]
          rw [wireAgentEnv]
          have hdb2 : wireDbPart meta ce env1 = Except.ok env1 := by
            rw [wireDbPart,
              if_pos (show jTruthy (pyGet env1 "connectDatabase".data) = true
                by rw [hcd2]; exact hcd1),
              if_neg hguard1, if_neg hguard2,
              dbWired_idem meta ce env1 hdi hdn hdu hdp hgood]
          rw [hdb2]
          show Except.ok (wireMaxTokens ce env1) = Except.ok env1
          rw [wireMaxTokens_noop ce env1 hmax]
    · rename_i hcd1
      injection hdb with h3
      have hcd2 : pyGet env1 "connectDatabase".data =
          pyGet env "connectDatabase".data := by
        rw [← h2, pyGet_wireMaxTokens_ne ce env2 "connectDatabase".data
          (by decide), ← h3]
      rw [wireAgentEnv]
      have hdb2 : wireDbPart meta ce env1 = Except.ok env1 := by
        rw [wireDbPart,
          if_neg (show ¬ jTruthy (pyGet env1 "connectDatabase".data) = true
            by rw [hcd2]; exact hcd1)]
      rw [hdb2]
      show Except.ok (wireMaxTokens ce env1) = Except.ok env1
      rw [wireMaxTokens_noop ce env1 hmax]
  · cases h

/-- An agent of the finalized tree is settled: a dict-shaped agent with a
dict-shaped environment has a settled environment; everything else is
untouched by the wiring anyway. -/
def goodAgentB (agent : J) : Bool :=
  match agent with
  | J.obj afields =>
    match pyGet afields "environment".data with
    | J.obj env => goodEnvB env
    | _ => true
  | _ => true

theorem wireAgentStep_obj (meta : List (Str × J))
    (canon : List (J × List (Str × J))) (afields env : List (Str × J))
    (henv : pyGet afields "environment".data = J.obj env) :
    wireAgentStep meta canon (J.obj afields) =
      match wireAgentEnv meta
          (jmapLookup canon (pyGet afields "name".data)) env with
      | Except.ok env' =>
        Except.ok (J.obj (pySet afields "environment".data (J.obj env')))
      | Except.error e => Except.error e := by
  rw [wireAgentStep, henv]

theorem wireAgentStep_passthrough (meta : List (Str × J))
    (canon : List (J × List (Str × J))) (afields : List (Str × J))
    (h : ∀ env, pyGet afields "environment".data = J.obj env → False) :
    wireAgentStep meta canon (J.obj afields) = Except.ok (J.obj afields) := by
  rw [wireAgentStep]
  split
  · rename_i env henv
    exact (h env henv).elim
  · rfl

/-- A wired agent whose result is settled is a fixed point of the per-agent
step. -/
theorem wireAgentStep_idem (meta : List (Str × J))
    (canon : List (J × List (Str × J))) (agent agent1 : J)
    (h : wireAgentStep meta canon agent = Except.ok agent1)
    (hg : goodAgentB agent1 = true) :
    wireAgentStep meta canon agent1 = Except.ok agent1 := by
  cases agent with
  | obj afields =>
    rw [wireAgentStep] at h
    split at h
    · rename_i env henv
      split at h
      · rename_i env' hwenv
        injection h with h2
        subst h2
        have hg' : goodEnvB env' = true := by
          rw [goodAgentB, pyGet_pySet_self] at hg
          exact hg
        have hname : pyGet (pySet afields "environment".data (J.obj env'))
            "name".data = pyGet afields "name".data :=
          pyGet_pySet_ne afields "environment".data "name".data (J.obj env')
            (by decide)
        have hidem := wireAgentEnv_idem meta
          (jmapLookup canon (pyGet afields "name".data)) env env' hwenv hg'
        rw [wireAgentStep_obj meta canon
            (pySet afields "environment".data (J.obj env')) env'
            (pyGet_pySet_self afields "environment".data (J.obj env')),
          hname, hidem]
        show Except.ok (J.obj (pySet
            (pySet afields "environment".data (J.obj env'))
            "environment".data (J.obj env'))) =
          Except.ok (J.obj (pySet afields "environment".data (J.obj env')))
        rw [pySet_self _ _ _
          (lookupField_pySet_self afields "environment".data (J.obj env'))]
      · cases h
    · rename_i hnotobj
      injection h with h2
      subst h2
      exact wireAgentStep_passthrough meta canon afields hnotobj
  | null =>
    have h' : Except.ok J.null = Except.ok agent1 := h
    injection h' with h2
    subst h2
    rfl
  | bool b =>
    have h' : Except.ok (J.bool b) = Except.ok agent1 := h
    injection h' with h2
    subst h2
    rfl
  | num n =>
    have h' : Except.ok (J.num n) = Except.ok agent1 := h
    injection h' with h2
    subst h2
    rfl
  | str s =>
    have h' : Except.ok (J.str s) = Except.ok agent1 := h
    injection h' with h2
    subst h2
    rfl
  | arr items =>
    have h' : Except.ok (J.arr items) = Except.ok agent1 := h
    injection h' with h2
    subst h2
    rfl

/-- A successful wiring pass over the agents list whose output agents are
all settled has that output as a fixed point. -/
theorem wireAgents_idem (meta : List (Str × J))
    (canon : List (J × List (Str × J))) (agents : List J) :
    ∀ agents1, wireAgents meta canon agents = Except.ok agents1 →
      agents1.all goodAgentB = true →
      wireAgents meta canon agents1 = Except.ok agents1 := by
  induction agents with
  | nil =>
    intro agents1 h hg
    have h' : (Except.ok [] : Except Err (List J)) = Except.ok agents1 := h
    injection h' with h2
    subst h2
    rfl
  | cons agent rest ih =>
    intro agents1 h hg
    rw [wireAgents] at h
    split at h
    · rename_i agent' hstep
      split at h
      · rename_i rest' hrest
        injection h with h2
        subst h2
        simp only [List.all_cons, Bool.and_eq_true] at hg
        have hstep2 := wireAgentStep_idem meta canon agent agent' hstep hg.1
        have hrest2 := ih rest' hrest hg.2
        rw [wireAgents, hstep2, hrest2]
      · cases h
    · cases h

/-- A finalized tree is settled: every agent of its `agents` list is. -/
def goodFinalized (r : List (Str × J)) : Bool :=
  match pyGet r "agents".data with
  | J.arr agents => agents.all goodAgentB
  | _ => true

theorem wireFinalized_arr (meta : List (Str × J))
    (cbn : List (J × List (Str × J))) (tenantUr : List (Str × J))
    (agents : List J) (hag : pyGet tenantUr "agents".data = J.arr agents) :
    wireFinalized meta cbn tenantUr =
      match wireAgents meta cbn agents with
      | Except.ok agents' =>
        Except.ok (pySet tenantUr "agents".data (J.arr agents'))
      | Except.error e => Except.error e := by
  rw [wireFinalized, hag]

/-- Inversion of a successful finalize run into its three phases. -/
theorem finalize_inv (tenantUr meta canonicalUr r : List (Str × J))
    (h : finalizeTenantUserrequirements tenantUr meta canonicalUr =
      Except.ok r) :
    ∃ cbn, canonicalAgentEnvByName canonicalUr = Except.ok cbn ∧
      wireFinalized meta cbn tenantUr = Except.ok r ∧
      collectPlaceholderPaths (J.obj r) [] = Except.ok [] := by
  rw [finalizeTenantUserrequirements] at h
  split at h
  · cases h
  · rename_i cbn hceq
    split at h
    · cases h
    · rename_i finalized hweq
      split at h
      · cases h
      · rename_i placeholders hpeq
        split at h
        · cases h
        · rename_i hnot
          injection h with h2
          subst h2
          exact ⟨cbn, hceq, hweq, by rw [hpeq, not_ne_iff.mp hnot]⟩

/-- Evaluation of finalize from its three phases. -/
theorem finalize_eval (tenantUr meta canonicalUr : List (Str × J))
    (cbn : List (J × List (Str × J))) (finalized : List (Str × J))
    (hc : canonicalAgentEnvByName canonicalUr = Except.ok cbn)
    (hw : wireFinalized meta cbn tenantUr = Except.ok finalized)
    (hp : collectPlaceholderPaths (J.obj finalized) [] = Except.ok []) :
    finalizeTenantUserrequirements tenantUr meta canonicalUr =
      Except.ok finalized := by
  rw [finalizeTenantUserrequirements, hc]
  simp [hw, hp]

def C9meta : List (Str × J) :=
  mkObj [("database_instance", J.str "proj:region:inst".data),
         ("database_name", J.str "db1".data),
         ("db_username", J.str "u".data),
         ("db_password", J.str "p".data)]

def C9t : List (Str × J) :=
  mkObj [("agents", J.arr [J.obj (mkObj [("environment",
    J.obj (mkObj [("connectDatabase", J.bool true),
                  ("DATABASE_URL",
                   J.str "REPLACE_ME_DATABASE_URL".data)]))])])]

def C9r : List (Str × J) :=
  (finalizeTenantUserrequirements C9t C9meta []).toOption.getD []

/-- C9 (counterexample): the tenant tree whose agent environment has
`connectDatabase: true` and a top-level placeholder `DATABASE_URL`
finalizes successfully to a placeholder-free result, yet a second finalize
run does not return that result unchanged: the first run overwrote the
placeholder at the top level only, so the second run appends a fresh
`DATABASE_URL` record to `extra_env`. -/
theorem C9_counterexample :
    finalizeTenantUserrequirements C9t C9meta [] = Except.ok C9r ∧
    collectPlaceholderPaths (J.obj C9r) [] = Except.ok [] ∧
    finalizeTenantUserrequirements C9r C9meta [] ≠ Except.ok C9r := by
  refine ⟨rfl, rfl, fun hcontra => ?_⟩
  have h2 : (finalizeTenantUserrequirements C9r C9meta []).toOption.getD []
      = C9r := by rw [hcontra]; rfl
  exact absurd h2 (by decide)

/-- C9 (amended): resolver idempotence holds for settled results.  If
finalize succeeds and, in every agent environment of the result, the
resolver-visible `DEFAULT_MAX_TOKENS` is no placeholder and (when
`connectDatabase` is truthy) every wired database key has a genuine
`extra_env` value with no present placeholder at the top level, then
finalize maps the result to itself with the same metadata and canonical
tree.  Without the settledness proviso idempotence fails — see the
counterexample, where a genuine top-level `DATABASE_URL` makes the second
run append an `extra_env` record. -/
theorem C9_resolver_idempotent (tenantUr meta canonicalUr r :
      List (Str × J))
    (h : finalizeTenantUserrequirements tenantUr meta canonicalUr =
      Except.ok r)
    (hg : goodFinalized r = true) :
    finalizeTenantUserrequirements r meta canonicalUr = Except.ok r := by
  obtain ⟨cbn, hc, hw, hp⟩ := finalize_inv tenantUr meta canonicalUr r h
  refine finalize_eval r meta canonicalUr cbn r hc ?_ hp
  rw [wireFinalized] at hw
  split at hw
  · rename_i agents hag
    split at hw
    · rename_i agents' hwa
      injection hw with h2
      have hgr : pyGet r "agents".data = J.arr agents' := by
        rw [← h2]
        exact pyGet_pySet_self tenantUr "agents".data (J.arr agents')
      have hall : agents'.all goodAgentB = true := by
        rw [goodFinalized, hgr] at hg
        exact hg
      have hwa2 := wireAgents_idem meta cbn agents agents' hwa hall
      rw [wireFinalized_arr meta cbn r agents' hgr, hwa2]
      show Except.ok (pySet r "agents".data (J.arr agents')) = Except.ok r
      rw [pySet_self _ _ _ (by
        rw [← h2]
        exact lookupField_pySet_self tenantUr "agents".data (J.arr agents'))]
    · cases hw
  · rename_i hnotarr
    injection hw with h2
    subst h2
    rw [wireFinalized]
    split
    · rename_i agents hag
      exact (hnotarr agents hag).elim
    · rfl

def C9wmeta : List (Str × J) :=
  mkObj [("database_instance", J.str "proj:region:inst".data),
         ("database_name", J.str "db1".data),
         ("db_username", J.str "u".data),
         ("db_password", J.str "p".data)]

def C9wt : List (Str × J) :=
  mkObj [("agents", J.arr [J.obj (mkObj [("environment",
    J.obj (mkObj [("connectDatabase", J.bool true)]))])])]

def C9wr : List (Str × J) :=
  (finalizeTenantUserrequirements C9wt C9wmeta []).toOption.getD []

theorem C9_resolver_idempotent_witness :
    finalizeTenantUserrequirements C9wr C9wmeta [] = Except.ok C9wr :=
  C9_resolver_idempotent C9wt C9wmeta [] C9wr (by rfl) (by decide)

end ThunderUI
